import Mathlib

/-!
Shallow embedding of `autobuild.py`, a build-and-deploy automation script.

The script is sequential orchestration of external processes driven by a
configuration file.  External effects are modelled by an explicit
environment (`Env`): `Env.exec` gives the outcome of every external
command invocation (git, mvn, scp, ssh) and `Env.readFile` the contents
of files read (`pom.xml`).  The persistent state of a run (`St`) carries
the on-disk cache file (parsed, as the `configparser` structure it holds),
the execution-log file contents, and the error accumulator.  Python
exceptions are values of `PyExc`; the per-module handler in `run` catches
exactly `PyExc.calledProcessError`, as the source catches exactly
`subprocess.CalledProcessError`.

Modelling notes, to keep the embedding honest about simplifications:
* `configparser` DEFAULT-section fallback and variable interpolation are
  not modelled; no claim depends on them and the cache files the script
  itself writes never use them.
* The execution log receives the `Execute "..."` line for every command
  and, on failure, the command output, exactly as `execute` writes them;
  streamed stderr of successful commands is not modelled.
* `time.gmtime()` is modelled by a `Tm` value holding the UTC broken-down
  time; `time.strftime` by `strftime` below, covering the directives the
  script can meet plus literal passthrough, as the C library does.
-/

/-- The single-quote character, written via its code point. -/
def sQuote : String := String.mk [Char.ofNat 39]

/-- `os.path.join a b` for the two-argument uses in the script.
Prefix/suffix tests are spelled over the character list so that closed
instances reduce inside the kernel. -/
def joinPath (a b : String) : String :=
  if ['/'].isPrefixOf b.toList then b
  else if a = "" then b
  else if ['/'].isSuffixOf a.toList then a ++ b
  else a ++ "/" ++ b

/-- `os.path.basename`: the part after the last slash. -/
def basename (p : String) : String :=
  String.mk ((p.toList.reverse.takeWhile (fun c => !(c == '/'))).reverse)

/-- Python `str` of a list of strings, as used by `CalledProcessError.__str__`. -/
def pyStr (args : List String) : String :=
  "[" ++ String.intercalate ", " (args.map (fun a => sQuote ++ a ++ sQuote)) ++ "]"

/-- `str(e)` for `e : subprocess.CalledProcessError` (Python 3.2). -/
def strCPE (cmd : List String) (returncode : Nat) : String :=
  "Command " ++ sQuote ++ pyStr cmd ++ sQuote ++ " returned non-zero exit status " ++ Nat.repr returncode

/-- `repr(e)` for `e : subprocess.CalledProcessError` (Python 3.2). -/
def reprCPE (cmd : List String) (returncode : Nat) : String :=
  "CalledProcessError(" ++ Nat.repr returncode ++ ", " ++ pyStr cmd ++ ")"

/-- The Python exceptions the script can raise. -/
inductive PyExc where
  | calledProcessError (cmd : List String) (returncode : Nat) (output : String)
  | configurationError (msg : String)
  | noSectionError (sect : String)
  | noOptionError (sect opt : String)
  | keyError (key : String)
  | attributeError
  | valueError (msg : String)
  | fileNotFoundError (path : String)
deriving Repr, DecidableEq

/-- A `configparser` section: ordered key/value pairs. -/
abbrev Sect := List (String × String)

/-- A parsed `configparser` file: ordered named sections. -/
abbrev Sects := List (String × Sect)

/-- First section with the given name. -/
def lookupSec (ss : Sects) (name : String) : Option Sect :=
  (ss.find? (fun p => p.1 == name)).map (fun p => p.2)

/-- First value with the given key inside a section. -/
def secGet (s : Sect) (k : String) : Option String :=
  (s.find? (fun p => p.1 == k)).map (fun p => p.2)

/-- The parsed configuration file. -/
structure Cfg where
  sections : Sects
deriving Repr, DecidableEq

/-- The parsed cache file has the same shape. -/
abbrev Cache := Sects

/-- Python `str.split(sep)` for a one-character separator, on character
lists. -/
def splitOnChar (ch : Char) : List Char → List (List Char)
  | [] => [[]]
  | c :: cs =>
    let r := splitOnChar ch cs
    if c == ch then [] :: r
    else (c :: r.headD []) :: r.tail

/-- Python `str.split(sep)` for a one-character separator. -/
def pySplit (s : String) (ch : Char) : List String :=
  (splitOnChar ch s.toList).map (fun l => String.mk l)

/-- `config.get(sec, k)`: raises `NoSectionError` / `NoOptionError`. -/
def Cfg.getE (c : Cfg) (sec k : String) : Except PyExc String :=
  match lookupSec c.sections sec with
  | none => .error (.noSectionError sec)
  | some s =>
    match secGet s k with
    | none => .error (.noOptionError sec k)
    | some v => .ok v

/-- `config[sec][k]`: raises `KeyError`. -/
def Cfg.getItem (c : Cfg) (sec k : String) : Except PyExc String :=
  match lookupSec c.sections sec with
  | none => .error (.keyError sec)
  | some s =>
    match secGet s k with
    | none => .error (.keyError k)
    | some v => .ok v

/-- `sec in config` (`configparser` membership is section existence). -/
def Cfg.hasSection (c : Cfg) (sec : String) : Bool :=
  (lookupSec c.sections sec).isSome

/-- `config.has_option(sec, k)` returns a Bool but raises `NoSectionError`
when the section is absent, as `configparser` does. -/
def Cfg.hasOptionE (c : Cfg) (sec k : String) : Except PyExc Bool :=
  match lookupSec c.sections sec with
  | none => .error (.noSectionError sec)
  | some s => .ok (secGet s k).isSome

/-- `k in config[sec]` assuming the section exists; `false` otherwise is
never relied on: callers that need the `KeyError` use `getItem`. -/
def Cfg.hasOption (c : Cfg) (sec k : String) : Bool :=
  match lookupSec c.sections sec with
  | none => false
  | some s => (secGet s k).isSome

/-- The mutable state of one run: the on-disk cache file (`none` when the
file does not exist), the execution-log file contents, and the error
accumulator list. -/
structure St where
  cache : Option Cache
  log : String
  errors : List String
deriving Repr, DecidableEq

/-- Outcomes of the external world: command execution (error carries the
non-zero return code and the captured output) and file reads. -/
structure Env where
  exec : List String → Except (Nat × String) String
  readFile : String → Option String

/-- An email message handed to `smtplib` by `send_mail`. -/
structure Mail where
  sender : String
  receiver : String
  server : String
  subject : String
  body : String
deriving Repr, DecidableEq

/-- UTC broken-down time, the result of `time.gmtime()`. -/
structure Tm where
  year : Nat
  month : Nat
  day : Nat
  hour : Nat
  minute : Nat
deriving Repr, DecidableEq

/-- Two-digit zero-padded decimal rendering. -/
def pad2 (n : Nat) : String :=
  if n < 10 then "0" ++ Nat.repr n else Nat.repr n

/-- `time.strftime` on the directives relevant here; unknown directives
and ordinary characters pass through literally. -/
def strftimeAux : List Char → Tm → List Char
  | [], _ => []
  | '%' :: c :: rest, tm =>
    (match c with
     | 'Y' => (Nat.repr tm.year).toList
     | 'm' => (pad2 tm.month).toList
     | 'd' => (pad2 tm.day).toList
     | 'H' => (pad2 tm.hour).toList
     | 'M' => (pad2 tm.minute).toList
     | '%' => ['%']
     | other => ['%', other]) ++ strftimeAux rest tm
  | c :: rest, tm => c :: strftimeAux rest tm

/-- `time.strftime fmt (time.gmtime())`. -/
def strftime (fmt : String) (tm : Tm) : String :=
  String.mk (strftimeAux fmt.toList tm)

/-- Python `str.lower` restricted to what `Char.toLower` covers (ASCII). -/
def pyLower (s : String) : String :=
  String.mk (s.toList.map Char.toLower)

/-- `configparser` `getboolean` value conversion. -/
def getboolean (v : String) : Except PyExc Bool :=
  let lv := pyLower v
  if lv == "1" || lv == "yes" || lv == "true" || lv == "on" then .ok true
  else if lv == "0" || lv == "no" || lv == "false" || lv == "off" then .ok false
  else .error (.valueError v)

/-- Number of characters before the first newline: the span `.` can cross
in a Python regex (re.DOTALL is not set in the script). -/
def lineLimit (rest : List Char) : Nat :=
  (rest.takeWhile (fun c => !(c == '\n'))).length

/-- Greedy backtracking of `(.*)` followed by the literal `closeT`: try
the longest capture first, shrinking until `closeT` matches. -/
def greedyFrom (closeT rest : List Char) : Nat → Option (List Char)
  | 0 => if closeT.isPrefixOf rest then some [] else none
  | k + 1 =>
    if closeT.isPrefixOf (rest.drop (k + 1)) then some (rest.take (k + 1))
    else greedyFrom closeT rest k

/-- `re.search(openT + "(.*)" + closeT, s)` returning the capture group:
leftmost starting position wins, then the capture is greedy within the
line.  This is the semantics of the two `re.search` calls in
`get_pom_infos`. -/
def searchTag (openT closeT : List Char) : List Char → Option (List Char)
  | [] => none
  | c :: cs =>
    if openT.isPrefixOf (c :: cs) then
      let rest := (c :: cs).drop openT.length
      match greedyFrom closeT rest (lineLimit rest) with
      | some cap => some cap
      | none => searchTag openT closeT cs
    else searchTag openT closeT cs

/-- String wrapper for `searchTag`. -/
def searchTagS (openT closeT s : String) : Option String :=
  (searchTag openT.toList closeT.toList s.toList).map (fun l => String.mk l)

/-- First index at which `needle` occurs as a prefix of a suffix. -/
def indexOfSub (needle : List Char) : List Char → Option Nat
  | [] => if needle = [] then some 0 else none
  | c :: cs =>
    if needle.isPrefixOf (c :: cs) then some 0
    else (indexOfSub needle cs).map (fun i => i + 1)

/-- The suffix that follows the first occurrence of an opening tag found
at index `i`. -/
def tagRest (openT s : List Char) (i : Nat) : List Char :=
  (s.drop i).drop openT.length

/-- Modelled from the spec wording, for comparison with `searchTag`: the
text of the *first tag*, i.e. the content between the first occurrence of
`openT` and the next occurrence of `closeT` after it. -/
def specFirstTag (openT closeT s : List Char) : Option (List Char) :=
  match indexOfSub openT s with
  | none => none
  | some i =>
    let rest := tagRest openT s i
    match indexOfSub closeT rest with
    | none => none
    | some j => some (rest.take j)

/-- String wrapper for `specFirstTag`. -/
def specFirstTagS (openT closeT s : String) : Option String :=
  (specFirstTag openT.toList closeT.toList s.toList).map (fun l => String.mk l)

/-- No occurrence of `closeT` strictly after position `j` within the
first line of `rest`. -/
def noLaterClose (closeT rest : List Char) (j : Nat) : Bool :=
  (List.range (lineLimit rest + 1)).all
    (fun k => if j < k then !(closeT.isPrefixOf (rest.drop k)) else true)

/-- `execute(args)`: log the command line, run it, return its decoded
output; on non-zero exit write the captured output to the log and raise
`CalledProcessError`. -/
def execute (env : Env) (args : List String) (st : St) : St × Except PyExc String :=
  let st1 : St := { st with log := st.log ++ "Execute \"" ++ String.intercalate " " args ++ "\"\n" }
  match env.exec args with
  | .ok out => (st1, .ok out)
  | .error (rc, out) =>
    ({ st1 with log := st1.log ++ out }, .error (.calledProcessError args rc out))

/-- `get_commit(config, module)`: current commit hash via `git log`. -/
def get_commit (env : Env) (config : Cfg) (module : String) (st : St) :
    St × Except PyExc String :=
  match config.getE module "path" with
  | .error e => (st, .error e)
  | .ok path =>
    execute env
      ["git", "--git-dir=" ++ joinPath path ".git", "log", "--pretty=format:%H", "-n", "1"] st

/-- `has_changed(config, module)`: compare the cached commit hash with the
current one. -/
def has_changed (env : Env) (config : Cfg) (module : String) (st : St) :
    St × Except PyExc Bool :=
  match config.getE "config" "cache" with
  | .error e => (st, .error e)
  | .ok _cache_path =>
    match st.cache with
    | none => (st, .ok true)
    | some cache =>
      match lookupSec cache module with
      | none => (st, .ok true)
      | some msec =>
        match secGet msec "commit" with
        | none => (st, .error (.noOptionError module "commit"))
        | some previous_commit =>
          match get_commit env config module st with
          | (st1, .error e) => (st1, .error e)
          | (st1, .ok current_commit) =>
            if previous_commit = current_commit then (st1, .ok false) else (st1, .ok true)

/-- Replace (or append) key `k` inside one section. -/
def setInSec (s : Sect) (k v : String) : Sect :=
  match s with
  | [] => [(k, v)]
  | (k0, v0) :: rest => if k0 == k then (k, v) :: rest else (k0, v0) :: setInSec rest k v

/-- Set `cache[m][k] = v` for a section `m` already present. -/
def setKey (c : Cache) (m k v : String) : Cache :=
  match c with
  | [] => []
  | (n, s) :: rest => if n == m then (n, setInSec s k v) :: rest else (n, s) :: setKey rest m k v

/-- `update_cache(config, module)`: re-read the cache file, set the
module's commit to the current hash, rewrite the file. -/
def update_cache (env : Env) (config : Cfg) (module : String) (st : St) :
    St × Except PyExc Unit :=
  match config.getE "config" "cache" with
  | .error e => (st, .error e)
  | .ok _cache_path =>
    let cache : Cache := match st.cache with | some c => c | none => []
    let cache := if (lookupSec cache module).isSome then cache else cache ++ [(module, [])]
    match get_commit env config module st with
    | (st1, .error e) => (st1, .error e)
    | (st1, .ok commit) =>
      ({ st1 with cache := some (setKey cache module "commit" commit) }, .ok ())

/-- `pull(config, module)`: `git fetch` then `git merge origin/master`. -/
def pull (env : Env) (config : Cfg) (module : String) (st : St) :
    St × Except PyExc Unit :=
  match config.getE module "path" with
  | .error e => (st, .error e)
  | .ok path =>
    match execute env ["git", "--git-dir=" ++ joinPath path ".git", "fetch"] st with
    | (st1, .error e) => (st1, .error e)
    | (st1, .ok _) =>
      match execute env
          ["git", "--git-dir=" ++ joinPath path ".git", "--work-tree=" ++ path,
           "merge", "origin/master"] st1 with
      | (st2, .error e) => (st2, .error e)
      | (st2, .ok _) => (st2, .ok ())

/-- `clean(config, module)`: `mvn clean`. -/
def clean (env : Env) (config : Cfg) (module : String) (st : St) :
    St × Except PyExc Unit :=
  match config.getE module "path" with
  | .error e => (st, .error e)
  | .ok path =>
    match execute env ["mvn", "--file=" ++ joinPath path "pom.xml", "clean"] st with
    | (st1, .error e) => (st1, .error e)
    | (st1, .ok _) => (st1, .ok ())

/-- `build(config, module)`: `mvn install`, with `-P profiles` when the
module configures profiles. -/
def build (env : Env) (config : Cfg) (module : String) (st : St) :
    St × Except PyExc Unit :=
  match config.getE module "path" with
  | .error e => (st, .error e)
  | .ok path =>
    match config.hasOptionE module "profiles" with
    | .error e => (st, .error e)
    | .ok false =>
      match execute env ["mvn", "--file=" ++ joinPath path "pom.xml", "install"] st with
      | (st1, .error e) => (st1, .error e)
      | (st1, .ok _) => (st1, .ok ())
    | .ok true =>
      match config.getE module "profiles" with
      | .error e => (st, .error e)
      | .ok profiles =>
        match execute env
            ["mvn", "--file=" ++ joinPath path "pom.xml", "-P", profiles, "install"] st with
        | (st1, .error e) => (st1, .error e)
        | (st1, .ok _) => (st1, .ok ())

/-- `get_pom_infos(config, module)`: read `pom.xml` and scrape the first
regex matches for artifactId and version; `.group(1)` on a failed search
raises `AttributeError`. -/
def get_pom_infos (env : Env) (config : Cfg) (module : String) (st : St) :
    St × Except PyExc (String × String) :=
  match config.getE module "path" with
  | .error e => (st, .error e)
  | .ok path =>
    let pom := joinPath path "pom.xml"
    match env.readFile pom with
    | none => (st, .error (.fileNotFoundError pom))
    | some cpom =>
      match searchTagS "<artifactId>" "</artifactId>" cpom with
      | none => (st, .error .attributeError)
      | some artifactId =>
        match searchTagS "<version>" "</version>" cpom with
        | none => (st, .error .attributeError)
        | some version => (st, .ok (artifactId, version))

/-- `get_jar_name(config, module)`: `path/target/artifactId-version.jar`. -/
def get_jar_name (env : Env) (config : Cfg) (module : String) (st : St) :
    St × Except PyExc String :=
  match get_pom_infos env config module st with
  | (st1, .error e) => (st1, .error e)
  | (st1, .ok (artifactId, version)) =>
    match config.getItem module "path" with
    | .error e => (st1, .error e)
    | .ok path =>
      let jar := artifactId ++ "-" ++ version ++ ".jar"
      let jar := joinPath "target/" jar
      (st1, .ok (joinPath path jar))

/-- `get_timestamp(config)`: format UTC now, `timestamp_format` overriding
the default format. -/
def get_timestamp (config : Cfg) (tm : Tm) : Except PyExc String :=
  match lookupSec config.sections "config" with
  | none => .error (.keyError "config")
  | some sec =>
    let fmt := match secGet sec "timestamp_format" with
               | some f => f
               | none => "%Y%m%d-%H%M"
    .ok (strftime fmt tm)

/-- The final `scp` of `upload`, shared by its three naming paths. -/
def uploadScp (env : Env) (user host remo jarname dstname : String) (st : St) :
    St × Except PyExc Unit :=
  match execute env ["scp", jarname, user ++ "@" ++ host ++ ":" ++ joinPath remo dstname] st with
  | (st1, .error e) => (st1, .error e)
  | (st1, .ok _) => (st1, .ok ())

/-- `upload(config, module)`: scp the jar to the remote host, renaming it
with a timestamp when timestamping is enabled. -/
def upload (env : Env) (config : Cfg) (tm : Tm) (module : String) (st : St) :
    St × Except PyExc Unit :=
  match config.getE "config" "user" with
  | .error e => (st, .error e)
  | .ok user =>
  match config.getE "config" "host" with
  | .error e => (st, .error e)
  | .ok host =>
  match config.getE "config" "remote" with
  | .error e => (st, .error e)
  | .ok remo =>
  match get_jar_name env config module st with
  | (st1, .error e) => (st1, .error e)
  | (st1, .ok jarname) =>
    let dstname := basename jarname
    match lookupSec config.sections "config" with
    | none => (st1, .error (.keyError "config"))
    | some sec =>
      match secGet sec "timestamp" with
      | none => uploadScp env user host remo jarname dstname st1
      | some tsv =>
        match getboolean tsv with
        | .error e => (st1, .error e)
        | .ok false => uploadScp env user host remo jarname dstname st1
        | .ok true =>
          match get_pom_infos env config module st1 with
          | (st2, .error e) => (st2, .error e)
          | (st2, .ok (artifactId, version)) =>
            match get_timestamp config tm with
            | .error e => (st2, .error e)
            | .ok ts =>
              uploadScp env user host remo jarname
                (artifactId ++ "-" ++ version ++ "-" ++ ts ++ ".jar") st2

/-- The loop body of `check_config`. -/
def checkRequired (sec : Sect) : List String → Except PyExc Unit
  | [] => .ok ()
  | r :: rest =>
    if (secGet sec r).isSome then checkRequired sec rest
    else .error (.configurationError ("missing option " ++ sQuote ++ r ++ sQuote))

/-- `check_config(config)`: the global section must contain the required
options `user, host, remote, modules, cache`. -/
def check_config (config : Cfg) : Except PyExc Unit :=
  match lookupSec config.sections "config" with
  | none => .error (.keyError "config")
  | some sec => checkRequired sec ["user", "host", "remote", "modules", "cache"]

/-- `check_module_config(config, module)`: the module section must contain
`path`; `has_option` raises `NoSectionError` when the section is absent. -/
def check_module_config (config : Cfg) (module : String) : Except PyExc Unit :=
  match lookupSec config.sections module with
  | none => .error (.noSectionError module)
  | some sec =>
    if (secGet sec "path").isSome then .ok ()
    else .error (.configurationError
      ("missing option " ++ sQuote ++ "path" ++ sQuote ++ " for module " ++ sQuote ++ module ++ sQuote))

/-- The `try: clean; build; upload; update_cache` block of `run`. -/
def buildPipeline (env : Env) (config : Cfg) (tm : Tm) (module : String) (st : St) :
    St × Except PyExc Unit :=
  match clean env config module st with
  | (st1, .error e) => (st1, .error e)
  | (st1, .ok ()) =>
    match build env config module st1 with
    | (st2, .error e) => (st2, .error e)
    | (st2, .ok ()) =>
      match upload env config tm module st2 with
      | (st3, .error e) => (st3, .error e)
      | (st3, .ok ()) => update_cache env config module st3

/-- The part of the loop body after the pull step: change check, then the
guarded build pipeline with its `CalledProcessError` handler. -/
def afterPullPart (env : Env) (config : Cfg) (tm : Tm) (module : String) (st : St) :
    St × Except PyExc Unit :=
  match has_changed env config module st with
  | (st1, .error e) => (st1, .error e)
  | (st1, .ok false) => (st1, .ok ())
  | (st1, .ok true) =>
    match buildPipeline env config tm module st1 with
    | (st2, .ok ()) => (st2, .ok ())
    | (st2, .error (.calledProcessError cmd rc _out)) =>
      ({ st2 with errors := st2.errors ++ ["- Failed to build " ++ module ++ " : " ++ strCPE cmd rc] }, .ok ())
    | (st2, .error e) => (st2, .error e)

/-- One iteration of the module loop in `run`: module config check, pull
with its handler, then `afterPullPart`. -/
def processModule (env : Env) (config : Cfg) (tm : Tm) (module : String) (st : St) :
    St × Except PyExc Unit :=
  match check_module_config config module with
  | .error e => (st, .error e)
  | .ok () =>
    match pull env config module st with
    | (stp, .ok ()) => afterPullPart env config tm module stp
    | (stp, .error (.calledProcessError cmd rc _out)) =>
      afterPullPart env config tm module
        { stp with errors := stp.errors ++ ["- Failed to pull " ++ module ++ " : " ++ strCPE cmd rc] }
    | (stp, .error e) => (stp, .error e)

/-- The module loop of `run`. -/
def runModules (env : Env) (config : Cfg) (tm : Tm) :
    List String → St → St × Except PyExc Unit
  | [], st => (st, .ok ())
  | m :: rest, st =>
    match processModule env config tm m st with
    | (st1, .error e) => (st1, .error e)
    | (st1, .ok ()) => runModules env config tm rest st1

/-- The optional remote post hook of `run`. -/
def hooksStep (env : Env) (config : Cfg) (st : St) : St × Except PyExc Unit :=
  match lookupSec config.sections "hooks" with
  | none => (st, .ok ())
  | some hsec =>
    match secGet hsec "rpost" with
    | none => (st, .ok ())
    | some rpost =>
      match config.getItem "config" "user" with
      | .error e => (st, .error e)
      | .ok user =>
        match config.getItem "config" "host" with
        | .error e => (st, .error e)
        | .ok host =>
          match execute env ["ssh", user ++ "@" ++ host, rpost] st with
          | (st1, .ok _) => (st1, .ok ())
          | (st1, .error (.calledProcessError cmd rc _out)) =>
            ({ st1 with errors := st1.errors ++ ["- Failed to execute remote post hook: " ++ reprCPE cmd rc] }, .ok ())
          | (st1, .error e) => (st1, .error e)

/-- `get_log(config)`: flush and re-read the log file. -/
def get_log (config : Cfg) (st : St) : Except PyExc String :=
  match config.getE "config" "log" with
  | .error e => .error e
  | .ok _ => .ok st.log

/-- `send_mail(config, subject, message)`: skipped entirely when no email
section is configured; otherwise the message handed to the SMTP server is
returned as the `Mail` value. -/
def send_mail (config : Cfg) (subject message : String) : Except PyExc (Option Mail) :=
  if config.hasSection "email" = false then .ok none
  else
    match config.getE "email" "from" with
    | .error e => .error e
    | .ok sender =>
      match config.getE "email" "contact" with
      | .error e => .error e
      | .ok receiver =>
        match config.getE "email" "server" with
        | .error e => .error e
        | .ok server => .ok (some ⟨sender, receiver, server, subject, message⟩)

/-- `run(config_path)` given the parsed configuration, the external world
and the initial cache file; returns the final state and either the
uncaught exception or the mail sent (if any). -/
def run (env : Env) (config : Cfg) (tm : Tm) (cache0 : Option Cache) :
    St × Except PyExc (Option Mail) :=
  let st0 : St := ⟨cache0, "", []⟩
  match check_config config with
  | .error e => (st0, .error e)
  | .ok () =>
    match config.getE "config" "log" with
    | .error e => (st0, .error e)
    | .ok _log_path =>
      let st1 : St := { st0 with log := "" }
      match config.getE "config" "modules" with
      | .error e => (st1, .error e)
      | .ok modulesStr =>
        match runModules env config tm (pySplit modulesStr ',') st1 with
        | (st2, .error e) => (st2, .error e)
        | (st2, .ok ()) =>
          match hooksStep env config st2 with
          | (st3, .error e) => (st3, .error e)
          | (st3, .ok ()) =>
            if st3.errors.isEmpty then (st3, .ok none)
            else
              match get_log config st3 with
              | .error e => (st3, .error e)
              | .ok logData =>
                let message := "Autobuild has raised some errors :\n" ++
                  String.intercalate "\n" st3.errors ++
                  "\n\nExecution log :\n\n" ++ logData
                match send_mail config "[autobuild] errors" message with
                | .error e => (st3, .error e)
                | .ok m => (st3, .ok m)

/-- The terminal action of the `__main__` block.  The usage branch prints
and then falls off the end of the script, so the interpreter exits with
status 0; the missing-file branch calls `exit(1)`. -/
inductive CliAction where
  | usage (line : String) (code : Nat)
  | missingFile (line : String) (code : Nat)
  | runConfig (path : String)
deriving Repr, DecidableEq

/-- The `__main__` block: argument count check, then existence check,
then `run`. -/
def cliMain (argv : List String) (pathExists : String → Bool) : CliAction :=
  if argv.length < 2 then
    .usage ("Usage: " ++ argv.headD "" ++ " config.cfg") 0
  else
    let p := (argv.drop 1).headD ""
    if pathExists p = false then
      .missingFile ("file does not exist " ++ sQuote ++ p ++ sQuote) 1
    else .runConfig p

/-- Exit status of the terminal CLI actions (none for a full run). -/
def CliAction.exitCode : CliAction → Option Nat
  | .usage _ c => some c
  | .missingFile _ c => some c
  | .runConfig _ => none

/-- The cache file record for a module: the stored commit hash. -/
def cacheCommit (c : Option Cache) (m : String) : Option String :=
  match c with
  | none => none
  | some cache =>
    match lookupSec cache m with
    | none => none
    | some sec => secGet sec "commit"

/-- Well-formedness of a cache file for a module: when the module's
section exists it carries a commit key (true of every cache file the
script itself writes). -/
def cacheWF (c : Option Cache) (m : String) : Bool :=
  match c with
  | none => true
  | some cache =>
    match lookupSec cache m with
    | none => true
    | some sec => (secGet sec "commit").isSome

/-! Concrete inputs used by witnesses and counterexamples. -/

/-- A fixed UTC time. -/
def tmX : Tm := ⟨2026, 10, 12, 3, 4⟩

/-- Initial state: no cache file, empty log, no errors. -/
def st0 : St := ⟨none, "", []⟩

/-- A well-formed build descriptor. -/
def pomOK : String := "<artifactId>foo</artifactId>\n<version>1.2</version>\n"

/-- A descriptor whose first line holds two complete artifactId tags. -/
def pomDup : String :=
  "<artifactId>foo</artifactId><artifactId>x</artifactId>\n<version>1.2</version>\n"

/-- A descriptor with no artifactId tag at all. -/
def pomNoTag : String := "<project></project>\n"

/-- A descriptor with an artifactId tag but no version tag. -/
def pomNoVer : String := "<artifactId>foo</artifactId>\n"

/-- A one-module configuration with all global keys. -/
def configOK : Cfg :=
  ⟨[("config",
     [("user", "u"), ("host", "h"), ("remote", "rem"), ("modules", "m1"),
      ("cache", "cachefile"), ("log", "logfile")]),
    ("m1", [("path", "pA")])]⟩

/-- Like `configOK` but the global section lacks `log`. -/
def configNoLog : Cfg :=
  ⟨[("config",
     [("user", "u"), ("host", "h"), ("remote", "rem"), ("modules", "m1"),
      ("cache", "cachefile")]),
    ("m1", [("path", "pA")])]⟩

/-- Like `configOK` but the global section lacks `cache`. -/
def configNoCache : Cfg :=
  ⟨[("config",
     [("user", "u"), ("host", "h"), ("remote", "rem"), ("modules", "m1"),
      ("log", "logfile")]),
    ("m1", [("path", "pA")])]⟩

/-- Like `configOK` with timestamping enabled and format `%Y%m%d`. -/
def configTS : Cfg :=
  ⟨[("config",
     [("user", "u"), ("host", "h"), ("remote", "rem"), ("modules", "m1"),
      ("cache", "cachefile"), ("log", "logfile"),
      ("timestamp", "yes"), ("timestamp_format", "%Y%m%d")]),
    ("m1", [("path", "pA")])]⟩

/-- Two modules; the `m2` section exists but lacks `path`. -/
def config4 : Cfg :=
  ⟨[("config",
     [("user", "u"), ("host", "h"), ("remote", "rem"), ("modules", "m1,m2"),
      ("cache", "cachefile"), ("log", "logfile")]),
    ("m1", [("path", "pA")]), ("m2", [])]⟩

/-- Two modules and a configured email section. -/
def config8 : Cfg :=
  ⟨[("config",
     [("user", "u"), ("host", "h"), ("remote", "rem"), ("modules", "modA,modB"),
      ("cache", "cachefile"), ("log", "logfile")]),
    ("modA", [("path", "pA")]), ("modB", [("path", "pB")]),
    ("email", [("from", "from@x"), ("contact", "contact@x"), ("server", "smtp.x")])]⟩

/-- A world where every command succeeds; `git log` yields `h1`. -/
def envOK : Env :=
  ⟨fun args =>
     match args with
     | "git" :: _ :: "log" :: _ => .ok "h1"
     | _ => .ok "",
   fun p => if p == "pA/pom.xml" then some pomOK else none⟩

/-- Like `envOK` but `scp` fails. -/
def envUF : Env :=
  ⟨fun args =>
     match args with
     | "scp" :: _ => .error (1, "upfail\n")
     | "git" :: _ :: "log" :: _ => .ok "h1"
     | _ => .ok "",
   fun p => if p == "pA/pom.xml" then some pomOK else none⟩

/-- Like `envOK` but `git fetch` fails. -/
def envPF : Env :=
  ⟨fun args =>
     match args with
     | "git" :: _ :: ["fetch"] => .error (1, "fetchfail\n")
     | "git" :: _ :: "log" :: _ => .ok "h1"
     | _ => .ok "",
   fun p => if p == "pA/pom.xml" then some pomOK else none⟩

/-- Like `envOK` but the descriptor has no artifactId tag. -/
def envNT : Env :=
  ⟨fun args =>
     match args with
     | "git" :: _ :: "log" :: _ => .ok "h1"
     | _ => .ok "",
   fun p => if p == "pA/pom.xml" then some pomNoTag else none⟩

/-- Like `envOK` but the descriptor has an artifactId and no version tag. -/
def envNV : Env :=
  ⟨fun args =>
     match args with
     | "git" :: _ :: "log" :: _ => .ok "h1"
     | _ => .ok "",
   fun p => if p == "pA/pom.xml" then some pomNoVer else none⟩

/-- Like `envOK` but the descriptor holds two artifactId tags on one line. -/
def envDup : Env :=
  ⟨fun args =>
     match args with
     | "git" :: _ :: "log" :: _ => .ok "h1"
     | _ => .ok "",
   fun p => if p == "pA/pom.xml" then some pomDup else none⟩

/-- World for the two-failure report scenario: `modA`'s fetch fails and
`modB`'s install fails; everything else succeeds. -/
def env8 : Env :=
  ⟨fun args =>
     match args with
     | ["git", gd, "fetch"] => if gd == "--git-dir=pA/.git" then .error (1, "fetchfail\n") else .ok ""
     | ["mvn", f, "install"] => if f == "--file=pB/pom.xml" then .error (1, "buildfail\n") else .ok ""
     | "git" :: _ :: "log" :: _ => .ok "h1"
     | _ => .ok "",
   fun p => if p == "pA/pom.xml" || p == "pB/pom.xml" then some pomOK else none⟩

/-- A cache file recording commit `h1` for `m1`. -/
def stCached : St := ⟨some [("m1", [("commit", "h1")])], "", []⟩

/-- A world where every command succeeds with empty output. -/
def env7 : Env :=
  ⟨fun _ => .ok "", fun p => if p == "pA/pom.xml" then some pomOK else none⟩

/-- The argument vector of the final `scp` in `upload`. -/
def scpArgs (user host remo jarname dst : String) : List String :=
  ["scp", jarname, user ++ "@" ++ host ++ ":" ++ joinPath remo dst]

/-- The mail component of a run result (none when the run raised). -/
def mailOf (r : St × Except PyExc (Option Mail)) : Option Mail :=
  match r.2 with
  | Except.ok m => m
  | Except.error _ => none

/-! State-preservation lemmas: which parts of `St` each operation can
touch.  `execute` only appends to the log; the cache is written only by
`update_cache`; the error accumulator is written only by the handlers in
the module loop and the hook handler. -/

theorem execute_st {env : Env} {args : List String} {st st2 : St} {r : Except PyExc String}
    (h : execute env args st = (st2, r)) :
    st2.cache = st.cache ∧ st2.errors = st.errors := by
  simp only [execute] at h
  split at h <;>
  · injection h with h1 h2
    subst h1
    exact ⟨rfl, rfl⟩

theorem get_commit_st {env : Env} {config : Cfg} {module : String} {st st2 : St}
    {r : Except PyExc String} (h : get_commit env config module st = (st2, r)) :
    st2.cache = st.cache ∧ st2.errors = st.errors := by
  simp only [get_commit] at h
  split at h
  · injection h with h1 h2
    subst h1
    exact ⟨rfl, rfl⟩
  · exact execute_st h

theorem pull_st {env : Env} {config : Cfg} {module : String} {st st2 : St}
    {r : Except PyExc Unit} (h : pull env config module st = (st2, r)) :
    st2.cache = st.cache ∧ st2.errors = st.errors := by
  simp only [pull] at h
  split at h
  · injection h with h1 h2
    subst h1
    exact ⟨rfl, rfl⟩
  · split at h
    · rename_i st1 e heq
      injection h with h1 h2
      subst h1
      exact execute_st heq
    · rename_i st1 o heq
      split at h <;>
      · rename_i heq2
        injection h with h1 h2
        subst h1
        obtain ⟨a1, a2⟩ := execute_st heq
        obtain ⟨b1, b2⟩ := execute_st heq2
        exact ⟨b1.trans a1, b2.trans a2⟩

theorem clean_st {env : Env} {config : Cfg} {module : String} {st st2 : St}
    {r : Except PyExc Unit} (h : clean env config module st = (st2, r)) :
    st2.cache = st.cache ∧ st2.errors = st.errors := by
  simp only [clean] at h
  split at h
  · injection h with h1 h2
    subst h1
    exact ⟨rfl, rfl⟩
  · split at h <;>
    · rename_i heq
      injection h with h1 h2
      subst h1
      exact execute_st heq

theorem build_st {env : Env} {config : Cfg} {module : String} {st st2 : St}
    {r : Except PyExc Unit} (h : build env config module st = (st2, r)) :
    st2.cache = st.cache ∧ st2.errors = st.errors := by
  simp only [build] at h
  split at h
  · injection h with h1 h2
    subst h1
    exact ⟨rfl, rfl⟩
  · split at h
    · injection h with h1 h2
      subst h1
      exact ⟨rfl, rfl⟩
    · split at h <;>
      · rename_i heq
        injection h with h1 h2
        subst h1
        exact execute_st heq
    · split at h
      · injection h with h1 h2
        subst h1
        exact ⟨rfl, rfl⟩
      · split at h <;>
        · rename_i heq
          injection h with h1 h2
          subst h1
          exact execute_st heq

theorem has_changed_st {env : Env} {config : Cfg} {module : String} {st st2 : St}
    {r : Except PyExc Bool} (h : has_changed env config module st = (st2, r)) :
    st2.cache = st.cache ∧ st2.errors = st.errors := by
  simp only [has_changed] at h
  split at h
  · injection h with h1 h2
    subst h1
    exact ⟨rfl, rfl⟩
  · split at h
    · injection h with h1 h2
      subst h1
      exact ⟨rfl, rfl⟩
    · split at h
      · injection h with h1 h2
        subst h1
        exact ⟨rfl, rfl⟩
      · split at h
        · injection h with h1 h2
          subst h1
          exact ⟨rfl, rfl⟩
        · split at h
          · rename_i heq
            injection h with h1 h2
            subst h1
            exact get_commit_st heq
          · rename_i heq
            split at h <;>
            · injection h with h1 h2
              subst h1
              exact get_commit_st heq

theorem get_pom_infos_st {env : Env} {config : Cfg} {module : String} {st st2 : St}
    {r : Except PyExc (String × String)} (h : get_pom_infos env config module st = (st2, r)) :
    st2 = st := by
  simp only [get_pom_infos] at h
  split at h
  · injection h with h1 h2
    exact h1.symm
  · split at h
    · injection h with h1 h2
      exact h1.symm
    · split at h
      · injection h with h1 h2
        exact h1.symm
      · split at h <;>
        · injection h with h1 h2
          exact h1.symm

theorem get_jar_name_st {env : Env} {config : Cfg} {module : String} {st st2 : St}
    {r : Except PyExc String} (h : get_jar_name env config module st = (st2, r)) :
    st2 = st := by
  simp only [get_jar_name] at h
  split at h
  · rename_i heq
    injection h with h1 h2
    subst h1
    exact get_pom_infos_st heq
  · rename_i heq
    split at h <;>
    · injection h with h1 h2
      subst h1
      exact get_pom_infos_st heq

theorem uploadScp_st {env : Env} {user host remo jarname dstname : String} {st st2 : St}
    {r : Except PyExc Unit} (h : uploadScp env user host remo jarname dstname st = (st2, r)) :
    st2.cache = st.cache ∧ st2.errors = st.errors := by
  simp only [uploadScp] at h
  split at h <;>
  · rename_i heq
    injection h with h1 h2
    subst h1
    exact execute_st heq

theorem upload_st {env : Env} {config : Cfg} {tm : Tm} {module : String} {st st2 : St}
    {r : Except PyExc Unit} (h : upload env config tm module st = (st2, r)) :
    st2.cache = st.cache ∧ st2.errors = st.errors := by
  simp only [upload] at h
  split at h
  · injection h with h1 h2
    subst h1
    exact ⟨rfl, rfl⟩
  · split at h
    · injection h with h1 h2
      subst h1
      exact ⟨rfl, rfl⟩
    · split at h
      · injection h with h1 h2
        subst h1
        exact ⟨rfl, rfl⟩
      · split at h
        · rename_i heq
          injection h with h1 h2
          subst h1
          rw [get_jar_name_st heq]
          exact ⟨rfl, rfl⟩
        · rename_i st1 jarname heq
          have hst1 : st1 = st := get_jar_name_st heq
          subst hst1
          split at h
          · injection h with h1 h2
            subst h1
            exact ⟨rfl, rfl⟩
          · split at h
            · exact uploadScp_st h
            · split at h
              · injection h with h1 h2
                subst h1
                exact ⟨rfl, rfl⟩
              · exact uploadScp_st h
              · split at h
                · rename_i heq2
                  injection h with h1 h2
                  subst h1
                  rw [get_pom_infos_st heq2]
                  exact ⟨rfl, rfl⟩
                · rename_i st2x a v heq2
                  have hst2 : st2x = st1 := get_pom_infos_st heq2
                  subst hst2
                  split at h
                  · injection h with h1 h2
                    subst h1
                    exact ⟨rfl, rfl⟩
                  · exact uploadScp_st h

theorem update_cache_errors {env : Env} {config : Cfg} {module : String} {st st2 : St}
    {r : Except PyExc Unit} (h : update_cache env config module st = (st2, r)) :
    st2.errors = st.errors := by
  simp only [update_cache] at h
  split at h
  · injection h with h1 h2
    subst h1
    rfl
  · split at h <;>
    · rename_i heq
      injection h with h1 h2
      subst h1
      exact (get_commit_st heq).2

theorem update_cache_cache_of_error {env : Env} {config : Cfg} {module : String}
    {st st2 : St} {e : PyExc} (h : update_cache env config module st = (st2, .error e)) :
    st2.cache = st.cache := by
  simp only [update_cache] at h
  split at h
  · injection h with h1 h2
    subst h1
    rfl
  · split at h
    · rename_i heq
      injection h with h1 h2
      subst h1
      exact (get_commit_st heq).1
    · injection h with h1 h2
      injection h2

theorem buildPipeline_errors {env : Env} {config : Cfg} {tm : Tm} {module : String}
    {st st2 : St} {r : Except PyExc Unit}
    (h : buildPipeline env config tm module st = (st2, r)) :
    st2.errors = st.errors := by
  simp only [buildPipeline] at h
  split at h
  · rename_i heq
    injection h with h1 h2
    subst h1
    exact (clean_st heq).2
  · rename_i st1 heq
    split at h
    · rename_i heq2
      injection h with h1 h2
      subst h1
      exact (build_st heq2).2.trans (clean_st heq).2
    · rename_i st1b heq2
      split at h
      · rename_i heq3
        injection h with h1 h2
        subst h1
        exact ((upload_st heq3).2.trans (build_st heq2).2).trans (clean_st heq).2
      · rename_i st1c heq3
        exact ((update_cache_errors h).trans
          ((upload_st heq3).2.trans (build_st heq2).2)).trans (clean_st heq).2

theorem buildPipeline_cache_of_error {env : Env} {config : Cfg} {tm : Tm} {module : String}
    {st st2 : St} {e : PyExc}
    (h : buildPipeline env config tm module st = (st2, .error e)) :
    st2.cache = st.cache := by
  simp only [buildPipeline] at h
  split at h
  · rename_i heq
    injection h with h1 h2
    subst h1
    exact (clean_st heq).1
  · rename_i st1 heq
    split at h
    · rename_i heq2
      injection h with h1 h2
      subst h1
      exact (build_st heq2).1.trans (clean_st heq).1
    · rename_i st1b heq2
      split at h
      · rename_i heq3
        injection h with h1 h2
        subst h1
        exact ((upload_st heq3).1.trans (build_st heq2).1).trans (clean_st heq).1
      · rename_i st1c heq3
        exact ((update_cache_cache_of_error h).trans
          ((upload_st heq3).1.trans (build_st heq2).1)).trans (clean_st heq).1

theorem afterPullPart_errors {env : Env} {config : Cfg} {tm : Tm} {module : String}
    {st st2 : St} {r : Except PyExc Unit}
    (h : afterPullPart env config tm module st = (st2, r)) :
    ∃ suf, st2.errors = st.errors ++ suf := by
  simp only [afterPullPart] at h
  split at h
  · rename_i heq
    injection h with h1 h2
    subst h1
    exact ⟨[], by simp [(has_changed_st heq).2]⟩
  · rename_i heq
    injection h with h1 h2
    subst h1
    exact ⟨[], by simp [(has_changed_st heq).2]⟩
  · rename_i st1 heq
    split at h
    · rename_i heq2
      injection h with h1 h2
      subst h1
      exact ⟨[], by simp [(buildPipeline_errors heq2).trans (has_changed_st heq).2]⟩
    · rename_i st1b cmd rc out heq2
      injection h with h1 h2
      subst h1
      refine ⟨["- Failed to build " ++ module ++ " : " ++ strCPE cmd rc], ?_⟩
      simp [(buildPipeline_errors heq2).trans (has_changed_st heq).2]
    · rename_i st1b e heq2
      injection h with h1 h2
      subst h1
      exact ⟨[], by simp [(buildPipeline_errors heq2).trans (has_changed_st heq).2]⟩

/-! Lemmas about the cache write performed by `update_cache`. -/

theorem secGet_setInSec (s : Sect) (k v : String) : secGet (setInSec s k v) k = some v := by
  induction s with
  | nil => simp [setInSec, secGet]
  | cons a rest ih =>
    obtain ⟨k0, v0⟩ := a
    by_cases hk : (k0 == k) = true
    · simp [setInSec, hk, secGet]
    · simp only [setInSec, hk, if_false, Bool.false_eq_true]
      simpa [secGet, hk] using ih

theorem lookupSec_setKey (c : Cache) (m k v : String) (hs : (lookupSec c m).isSome = true) :
    ∃ s, lookupSec c m = some s ∧ lookupSec (setKey c m k v) m = some (setInSec s k v) := by
  induction c with
  | nil => simp [lookupSec] at hs
  | cons a rest ih =>
    obtain ⟨n, s0⟩ := a
    by_cases hn : (n == m) = true
    · exact ⟨s0, by simp [lookupSec, hn], by simp [setKey, hn, lookupSec]⟩
    · simp only [lookupSec, List.find?] at hs ⊢
      simp only [hn] at hs ⊢
      obtain ⟨s, h1, h2⟩ := ih (by simpa [lookupSec] using hs)
      refine ⟨s, by simpa [lookupSec] using h1, ?_⟩
      simp only [setKey, hn, if_false, Bool.false_eq_true]
      simpa [lookupSec, List.find?, hn] using h2

theorem ensure_lookup_isSome (c : Cache) (m : String) :
    (lookupSec (if (lookupSec c m).isSome then c else c ++ [(m, [])]) m).isSome = true := by
  by_cases hc : (lookupSec c m).isSome = true
  · simp [hc]
  · simp only [hc, if_false, Bool.false_eq_true]
    induction c with
    | nil => simp [lookupSec]
    | cons a rest ih =>
      obtain ⟨n, s0⟩ := a
      by_cases hn : (n == m) = true
      · simp [lookupSec, hn]
      · simp only [lookupSec, List.find?, hn] at hc ⊢
        exact ih hc

theorem cacheCommit_after_set (base : Cache) (m commit : String) :
    cacheCommit
      (some (setKey (if (lookupSec base m).isSome then base else base ++ [(m, [])])
        m "commit" commit)) m = some commit := by
  obtain ⟨s, h1, h2⟩ :=
    lookupSec_setKey (if (lookupSec base m).isSome then base else base ++ [(m, [])])
      m "commit" commit (ensure_lookup_isSome base m)
  simp [cacheCommit, h2, secGet_setInSec]

theorem update_cache_ok_spec {env : Env} {config : Cfg} {module : String} {st st2 : St}
    (h : update_cache env config module st = (st2, Except.ok ())) :
    ∃ sc commit, get_commit env config module st = (sc, Except.ok commit) ∧
      cacheCommit st2.cache module = some commit := by
  simp only [update_cache] at h
  split at h
  · injection h with h1 h2
    injection h2
  · split at h
    · injection h with h1 h2
      injection h2
    · rename_i sc commit heq
      injection h with h1 h2
      subst h1
      exact ⟨sc, commit, heq, cacheCommit_after_set _ module commit⟩

theorem buildPipeline_ok_spec {env : Env} {config : Cfg} {tm : Tm} {module : String}
    {st st2 : St} (h : buildPipeline env config tm module st = (st2, Except.ok ())) :
    ∃ s2 s3 s4 sc commit,
      clean env config module st = (s2, Except.ok ()) ∧
      build env config module s2 = (s3, Except.ok ()) ∧
      upload env config tm module s3 = (s4, Except.ok ()) ∧
      get_commit env config module s4 = (sc, Except.ok commit) ∧
      update_cache env config module s4 = (st2, Except.ok ()) ∧
      cacheCommit st2.cache module = some commit := by
  simp only [buildPipeline] at h
  split at h
  · injection h with h1 h2
    injection h2
  · rename_i s2 heq
    split at h
    · injection h with h1 h2
      injection h2
    · rename_i s3 heq2
      split at h
      · injection h with h1 h2
        injection h2
      · rename_i s4 heq3
        obtain ⟨sc, commit, hgc, hcc⟩ := update_cache_ok_spec h
        exact ⟨s2, s3, s4, sc, commit, heq, heq2, heq3, hgc, h, hcc⟩

theorem afterPullPart_cache_spec {env : Env} {config : Cfg} {tm : Tm} {module : String}
    {st st1 : St} {r : Except PyExc Unit}
    (h : afterPullPart env config tm module st = (st1, r)) :
    st1.cache = st.cache ∨
    (r = Except.ok () ∧ ∃ stc st2 st3 st4 sc commit,
      clean env config module stc = (st2, Except.ok ()) ∧
      build env config module st2 = (st3, Except.ok ()) ∧
      upload env config tm module st3 = (st4, Except.ok ()) ∧
      get_commit env config module st4 = (sc, Except.ok commit) ∧
      update_cache env config module st4 = (st1, Except.ok ()) ∧
      cacheCommit st1.cache module = some commit) := by
  simp only [afterPullPart] at h
  split at h
  · rename_i heq
    injection h with h1 h2
    subst h1
    exact Or.inl (has_changed_st heq).1
  · rename_i heq
    injection h with h1 h2
    subst h1
    exact Or.inl (has_changed_st heq).1
  · rename_i sthc heq
    split at h
    · rename_i st2x heq2
      injection h with h1 h2
      subst h1
      subst h2
      obtain ⟨s2, s3, s4, sc, commit, c1, c2, c3, c4, c5, c6⟩ := buildPipeline_ok_spec heq2
      exact Or.inr ⟨rfl, sthc, s2, s3, s4, sc, commit, c1, c2, c3, c4, c5, c6⟩
    · rename_i st2x cmd rc out heq2
      injection h with h1 h2
      subst h1
      exact Or.inl ((buildPipeline_cache_of_error heq2).trans (has_changed_st heq).1)
    · rename_i st2x e heq2
      injection h with h1 h2
      subst h1
      exact Or.inl ((buildPipeline_cache_of_error heq2).trans (has_changed_st heq).1)

/-- C1: for every module M the cache entry for M is overwritten with the
current commit hash only after clean, build and upload for M have all
succeeded in this run's processing of M; whenever the
clean/build/upload/record block raises, the cache (hence M's record) is
exactly what it was before. -/
theorem C1_cache_record_only_after_success :
    (∀ (env : Env) (config : Cfg) (tm : Tm) (module : String) (st st1 : St)
       (r : Except PyExc Unit),
       processModule env config tm module st = (st1, r) →
       cacheCommit st1.cache module ≠ cacheCommit st.cache module →
       r = Except.ok () ∧
       ∃ stc st2 st3 st4 sc commit,
         clean env config module stc = (st2, Except.ok ()) ∧
         build env config module st2 = (st3, Except.ok ()) ∧
         upload env config tm module st3 = (st4, Except.ok ()) ∧
         get_commit env config module st4 = (sc, Except.ok commit) ∧
         update_cache env config module st4 = (st1, Except.ok ()) ∧
         cacheCommit st1.cache module = some commit) ∧
    (∀ (env : Env) (config : Cfg) (tm : Tm) (module : String) (st st2 : St) (e : PyExc),
       buildPipeline env config tm module st = (st2, Except.error e) →
       st2.cache = st.cache) := by
  constructor
  · intro env config tm module st st1 r h hne
    simp only [processModule] at h
    split at h
    · injection h with h1 h2
      subst h1
      exact absurd rfl hne
    · split at h
      · rename_i stp heq
        rcases afterPullPart_cache_spec h with hl | hr
        · rw [hl, (pull_st heq).1] at hne
          exact absurd rfl hne
        · exact hr
      · rename_i stp cmd rc out heq
        rcases afterPullPart_cache_spec h with hl | hr
        · rw [show ({ stp with errors := stp.errors ++
              ["- Failed to pull " ++ module ++ " : " ++ strCPE cmd rc] } : St).cache
              = stp.cache from rfl] at hl
          rw [hl, (pull_st heq).1] at hne
          exact absurd rfl hne
        · exact hr
      · rename_i stp e heq
        injection h with h1 h2
        subst h1
        rw [(pull_st heq).1] at hne
        exact absurd rfl hne
  · intro env config tm module st st2 e h
    exact buildPipeline_cache_of_error h

/-- Witness for C1: a fully successful pipeline for `m1` yields the
success chain with the recorded commit, and an upload failure leaves the
cache exactly as before. -/
theorem C1_cache_record_only_after_success_witness :
    (∃ stc st2 st3 st4 sc commit,
       clean envOK configOK "m1" stc = (st2, Except.ok ()) ∧
       build envOK configOK "m1" st2 = (st3, Except.ok ()) ∧
       upload envOK configOK tmX "m1" st3 = (st4, Except.ok ()) ∧
       get_commit envOK configOK "m1" st4 = (sc, Except.ok commit) ∧
       update_cache envOK configOK "m1" st4 =
         ((processModule envOK configOK tmX "m1" st0).1, Except.ok ()) ∧
       cacheCommit ((processModule envOK configOK tmX "m1" st0).1).cache "m1" = some commit) ∧
    ((buildPipeline envUF configOK tmX "m1" st0).1).cache = st0.cache := by
  constructor
  · exact (C1_cache_record_only_after_success.1 envOK configOK tmX "m1" st0
      (processModule envOK configOK tmX "m1" st0).1
      (processModule envOK configOK tmX "m1" st0).2 rfl (by decide)).2
  · exact C1_cache_record_only_after_success.2 envUF configOK tmX "m1" st0
      (buildPipeline envUF configOK tmX "m1" st0).1
      (PyExc.calledProcessError ["scp", "pA/target/foo-1.2.jar", "u@h:rem/foo-1.2.jar"]
        1 "upfail\n") rfl

/-- C2: `has_changed` returns true exactly when there is no cache file,
no cache section for the module, or the cached hash differs from the
hash the revision query returns; it returns false exactly when the
cached hash equals the current one.  Hypotheses: the global cache path
and module path are configured, the revision query succeeds with `hcur`,
and the module's cache section (if any) carries a commit key. -/
theorem C2_has_changed_iff :
    ∀ (env : Env) (config : Cfg) (module : String) (st : St) (cpath mpath hcur : String),
      Cfg.getE config "config" "cache" = Except.ok cpath →
      Cfg.getE config module "path" = Except.ok mpath →
      env.exec ["git", "--git-dir=" ++ joinPath mpath ".git", "log",
        "--pretty=format:%H", "-n", "1"] = Except.ok hcur →
      cacheWF st.cache module = true →
      (((has_changed env config module st).2 = Except.ok true) ↔
        (st.cache = none ∨
         (∃ cache, st.cache = some cache ∧ lookupSec cache module = none) ∨
         (∃ cache msec prev, st.cache = some cache ∧ lookupSec cache module = some msec ∧
            secGet msec "commit" = some prev ∧ prev ≠ hcur))) ∧
      (((has_changed env config module st).2 = Except.ok false) ↔
        (∃ cache msec, st.cache = some cache ∧ lookupSec cache module = some msec ∧
           secGet msec "commit" = some hcur)) := by
  intro env config module st cpath mpath hcur hc hp hx hwf
  cases hst : st.cache with
  | none =>
    have heval : (has_changed env config module st).2 = Except.ok true := by
      simp [has_changed, hc, hst]
    rw [heval]
    constructor
    · simp
    · simp
  | some cache =>
    cases hsec : lookupSec cache module with
    | none =>
      have heval : (has_changed env config module st).2 = Except.ok true := by
        simp [has_changed, hc, hst, hsec]
      rw [heval]
      constructor
      · simp [hsec]
      · simp [hsec]
    | some msec =>
      have hsome : (secGet msec "commit").isSome = true := by
        have hthis := hwf
        rw [hst] at hthis
        simpa [cacheWF, hsec] using hthis
      obtain ⟨prev, hprev⟩ := Option.isSome_iff_exists.mp hsome
      have heval : (has_changed env config module st).2 =
          if prev = hcur then Except.ok false else Except.ok true := by
        simp [has_changed, hc, hst, hsec, hprev, get_commit, hp, execute, hx, apply_ite]
      rw [heval]
      by_cases hpc : prev = hcur
      · subst hpc
        simp [hsec, hprev]
      · simp [hsec, hprev, hpc]

/-- Witness for C2: with a cache recording `h1` for `m1` and the revision
query returning `h1`, `has_changed` is false exactly as characterised. -/
theorem C2_has_changed_iff_witness :
    ((has_changed envOK configOK "m1" stCached).2 = Except.ok false ↔
      (∃ cache msec, stCached.cache = some cache ∧ lookupSec cache "m1" = some msec ∧
         secGet msec "commit" = some "h1")) :=
  (C2_has_changed_iff envOK configOK "m1" stCached "cachefile" "pA" "h1" rfl rfl rfl rfl).2

/-- Counterexample for C3: the global-section check does not require
`log`: a configuration with the five checked keys and no `log` passes
`check_config` instead of raising a ConfigurationError. -/
theorem C3_counterexample :
    check_config configNoLog = Except.ok () ∧
    Cfg.hasOption configNoLog "config" "log" = false ∧
    check_config configNoLog ≠
      Except.error (PyExc.configurationError ("missing option " ++ sQuote ++ "log" ++ sQuote)) := by
  refine ⟨rfl, rfl, ?_⟩
  intro h
  rw [show check_config configNoLog = Except.ok () from rfl] at h
  exact Except.noConfusion h

/-- C3 (amended): the required global keys are `user, host, remote,
modules, cache`; omitting exactly one of them (the others present) makes
`check_config` raise a ConfigurationError naming it, while a
configuration with all five passes the check whether or not `log` is
present. -/
theorem C3_required_global_keys :
    (∀ (config : Cfg) (k : String), k ∈ ["user", "host", "remote", "modules", "cache"] →
       Cfg.hasSection config "config" = true →
       Cfg.hasOption config "config" k = false →
       (∀ k2, k2 ∈ ["user", "host", "remote", "modules", "cache"] → k2 ≠ k →
          Cfg.hasOption config "config" k2 = true) →
       check_config config =
         Except.error (PyExc.configurationError ("missing option " ++ sQuote ++ k ++ sQuote))) ∧
    (∀ config : Cfg, Cfg.hasSection config "config" = true →
       (∀ k, k ∈ ["user", "host", "remote", "modules", "cache"] →
          Cfg.hasOption config "config" k = true) →
       check_config config = Except.ok ()) := by
  constructor
  · intro config k hk hs hmiss hothers
    obtain ⟨sec, hsec⟩ := Option.isSome_iff_exists.mp hs
    have hOpt : ∀ k2, Cfg.hasOption config "config" k2 = (secGet sec k2).isSome := by
      intro k2
      simp [Cfg.hasOption, hsec]
    rw [hOpt] at hmiss
    simp only [hOpt] at hothers
    simp only [List.mem_cons] at hk
    rcases hk with rfl | rfl | rfl | rfl | rfl | hk
    · simp [check_config, hsec, checkRequired, hmiss]
    · have hu := hothers "user" (by simp) (by decide)
      simp [check_config, hsec, checkRequired, hmiss, hu]
    · have hu := hothers "user" (by simp) (by decide)
      have hh := hothers "host" (by simp) (by decide)
      simp [check_config, hsec, checkRequired, hmiss, hu, hh]
    · have hu := hothers "user" (by simp) (by decide)
      have hh := hothers "host" (by simp) (by decide)
      have hr := hothers "remote" (by simp) (by decide)
      simp [check_config, hsec, checkRequired, hmiss, hu, hh, hr]
    · have hu := hothers "user" (by simp) (by decide)
      have hh := hothers "host" (by simp) (by decide)
      have hr := hothers "remote" (by simp) (by decide)
      have hm := hothers "modules" (by simp) (by decide)
      simp [check_config, hsec, checkRequired, hmiss, hu, hh, hr, hm]
    · exact absurd hk (by simp)
  · intro config hs hall
    obtain ⟨sec, hsec⟩ := Option.isSome_iff_exists.mp hs
    have hOpt : ∀ k2, Cfg.hasOption config "config" k2 = (secGet sec k2).isSome := by
      intro k2
      simp [Cfg.hasOption, hsec]
    have hu := hall "user" (by simp)
    have hh := hall "host" (by simp)
    have hr := hall "remote" (by simp)
    have hm := hall "modules" (by simp)
    have hc := hall "cache" (by simp)
    rw [hOpt] at hu hh hr hm hc
    simp [check_config, hsec, checkRequired, hu, hh, hr, hm, hc]

/-- Witness for C3 (amended): omitting `cache` raises the error naming
it; `configOK` (which also has `log`) passes. -/
theorem C3_required_global_keys_witness :
    check_config configNoCache =
      Except.error (PyExc.configurationError ("missing option " ++ sQuote ++ "cache" ++ sQuote)) ∧
    check_config configOK = Except.ok () := by
  constructor
  · refine C3_required_global_keys.1 configNoCache "cache" (by simp) rfl rfl ?_
    intro k2 h2 hne
    fin_cases h2
    · rfl
    · rfl
    · rfl
    · rfl
    · exact absurd rfl hne
  · refine C3_required_global_keys.2 configOK rfl ?_
    intro k hk
    fin_cases hk <;> rfl

/-- Counterexample for C4: `m2` lacks `path`, yet the ConfigurationError
is raised only after `m1` has been fully processed — the final state
even records `m1`'s new commit in the cache. -/
theorem C4_counterexample :
    (run envOK config4 tmX none).2 =
      Except.error (PyExc.configurationError ("missing option " ++ sQuote ++ "path" ++ sQuote ++
        " for module " ++ sQuote ++ "m2" ++ sQuote)) ∧
    cacheCommit ((run envOK config4 tmX none).1).cache "m1" = some "h1" := by
  exact ⟨rfl, rfl⟩

/-- C4 (amended): a ConfigurationError from the global check aborts the
run before any module is processed; a ConfigurationError for a module
section lacking `path` is raised when that module's turn comes, with no
processing of it or of later modules, while the modules before it have
already been processed. -/
theorem C4_module_config_error_timing :
    (∀ (env : Env) (config : Cfg) (tm : Tm) (cache0 : Option Cache) (e : PyExc),
       check_config config = Except.error e →
       run env config tm cache0 = (⟨cache0, "", []⟩, Except.error e)) ∧
    (∀ (env : Env) (config : Cfg) (tm : Tm) (bad : String) (e : PyExc)
       (rest : List String) (st : St),
       check_module_config config bad = Except.error e →
       runModules env config tm (bad :: rest) st = (st, Except.error e)) ∧
    (∀ (env : Env) (config : Cfg) (tm : Tm) (pre : List String) (bad : String) (e : PyExc)
       (rest : List String) (st st1 : St),
       runModules env config tm pre st = (st1, Except.ok ()) →
       check_module_config config bad = Except.error e →
       runModules env config tm (pre ++ bad :: rest) st = (st1, Except.error e)) := by
  refine ⟨?_, ?_, ?_⟩
  · intro env config tm cache0 e h
    simp [run, h]
  · intro env config tm bad e rest st h
    simp [runModules, processModule, h]
  · intro env config tm pre bad e rest st st1 hpre hbad
    induction pre generalizing st with
    | nil =>
      simp only [runModules] at hpre
      injection hpre with h1 h2
      subst h1
      simp [runModules, processModule, hbad]
    | cons m pre ih =>
      simp only [runModules] at hpre
      split at hpre
      · injection hpre with h1 h2
        injection h2
      · rename_i stx heq
        rw [List.cons_append]
        simp only [runModules]
        rw [heq]
        exact ih stx hpre

/-- Witness for C4 (amended): a missing global `cache` key aborts with the
initial state untouched; `m2`'s missing `path` aborts exactly when `m2`
is reached, keeping the state produced by processing `m1`. -/
theorem C4_module_config_error_timing_witness :
    run envOK configNoCache tmX none =
      (⟨none, "", []⟩,
        Except.error (PyExc.configurationError ("missing option " ++ sQuote ++ "cache" ++ sQuote))) ∧
    runModules envOK config4 tmX (["m1"] ++ "m2" :: []) st0 =
      ((runModules envOK config4 tmX ["m1"] st0).1,
        Except.error (PyExc.configurationError ("missing option " ++ sQuote ++ "path" ++ sQuote ++
          " for module " ++ sQuote ++ "m2" ++ sQuote))) := by
  constructor
  · exact C4_module_config_error_timing.1 envOK configNoCache tmX none
      (PyExc.configurationError ("missing option " ++ sQuote ++ "cache" ++ sQuote)) rfl
  · exact C4_module_config_error_timing.2.2 envOK config4 tmX ["m1"] "m2"
      (PyExc.configurationError ("missing option " ++ sQuote ++ "path" ++ sQuote ++
        " for module " ++ sQuote ++ "m2" ++ sQuote)) []
      st0 (runModules envOK config4 tmX ["m1"] st0).1 rfl rfl

/-- C5: when the pull step raises a command failure, the failure message
for the module is appended to the error accumulator and processing of
that same module continues: the change check runs and, if it answers
true, the guarded clean/build/upload block runs, before the loop moves
on. -/
theorem C5_pull_failure_continues :
    ∀ (env : Env) (config : Cfg) (tm : Tm) (module : String) (st stp : St)
      (cmd : List String) (rc : Nat) (out : String),
      check_module_config config module = Except.ok () →
      pull env config module st = (stp, Except.error (.calledProcessError cmd rc out)) →
      processModule env config tm module st =
        afterPullPart env config tm module
          { stp with errors := stp.errors ++
              ["- Failed to pull " ++ module ++ " : " ++ strCPE cmd rc] } ∧
      ∃ suf, ((processModule env config tm module st).1).errors =
        stp.errors ++ ["- Failed to pull " ++ module ++ " : " ++ strCPE cmd rc] ++ suf := by
  intro env config tm module st stp cmd rc out hchk hpull
  have hmain : processModule env config tm module st =
      afterPullPart env config tm module
        { stp with errors := stp.errors ++
            ["- Failed to pull " ++ module ++ " : " ++ strCPE cmd rc] } := by
    simp [processModule, hchk, hpull]
  refine ⟨hmain, ?_⟩
  rw [hmain]
  obtain ⟨suf, hsuf⟩ := afterPullPart_errors
    (show afterPullPart env config tm module
        { stp with errors := stp.errors ++
            ["- Failed to pull " ++ module ++ " : " ++ strCPE cmd rc] } =
      ((afterPullPart env config tm module
        { stp with errors := stp.errors ++
            ["- Failed to pull " ++ module ++ " : " ++ strCPE cmd rc] }).1,
       (afterPullPart env config tm module
        { stp with errors := stp.errors ++
            ["- Failed to pull " ++ module ++ " : " ++ strCPE cmd rc] }).2) from rfl)
  refine ⟨suf, ?_⟩
  rw [hsuf]

/-- Witness for C5: with a failing `git fetch`, processing of `m1`
continues from the error-annotated state. -/
theorem C5_pull_failure_continues_witness :
    processModule envPF configOK tmX "m1" st0 =
      afterPullPart envPF configOK tmX "m1"
        { (pull envPF configOK "m1" st0).1 with errors :=
            ((pull envPF configOK "m1" st0).1).errors ++
            ["- Failed to pull " ++ "m1" ++ " : " ++
              strCPE ["git", "--git-dir=pA/.git", "fetch"] 1] } ∧
    ∃ suf, ((processModule envPF configOK tmX "m1" st0).1).errors =
      ((pull envPF configOK "m1" st0).1).errors ++
      ["- Failed to pull " ++ "m1" ++ " : " ++ strCPE ["git", "--git-dir=pA/.git", "fetch"] 1] ++
      suf :=
  C5_pull_failure_continues envPF configOK tmX "m1" st0 (pull envPF configOK "m1" st0).1
    ["git", "--git-dir=pA/.git", "fetch"] 1 "fetchfail\n" rfl rfl

/-! Lemmas characterising the regex model `searchTag`. -/

theorem indexOfSub_prefix {needle s : List Char} {i : Nat}
    (h : indexOfSub needle s = some i) : needle.isPrefixOf (s.drop i) = true := by
  induction s generalizing i with
  | nil =>
    simp only [indexOfSub] at h
    split at h
    · rename_i hnil
      injection h with h1
      subst h1
      subst hnil
      simp
    · cases h
  | cons c cs ih =>
    simp only [indexOfSub] at h
    split at h
    · rename_i hpre
      injection h with h1
      subst h1
      exact hpre
    · cases hx : indexOfSub needle cs with
      | none =>
        rw [hx] at h
        simp at h
      | some i0 =>
        rw [hx] at h
        simp only [Option.map] at h
        injection h with h1
        subst h1
        exact ih hx

theorem indexOfSub_min {needle s : List Char} {i : Nat}
    (h : indexOfSub needle s = some i) :
    ∀ p, p < i → needle.isPrefixOf (s.drop p) = false := by
  induction s generalizing i with
  | nil =>
    intro p hp
    simp only [indexOfSub] at h
    split at h
    · injection h with h1
      omega
    · cases h
  | cons c cs ih =>
    intro p hp
    simp only [indexOfSub] at h
    split at h
    · injection h with h1
      omega
    · rename_i hpre
      cases hx : indexOfSub needle cs with
      | none =>
        rw [hx] at h
        simp at h
      | some i0 =>
        rw [hx] at h
        simp only [Option.map] at h
        injection h with h1
        subst h1
        cases p with
        | zero =>
          simp only [List.drop_zero]
          exact Bool.eq_false_iff.mpr hpre
        | succ p0 =>
          exact ih hx p0 (by omega)

theorem greedyFrom_eq {closeT rest : List Char} {j : Nat} :
    ∀ K, closeT.isPrefixOf (rest.drop j) = true →
      (∀ k, j < k → k ≤ K → closeT.isPrefixOf (rest.drop k) = false) →
      j ≤ K → greedyFrom closeT rest K = some (rest.take j) := by
  intro K
  induction K with
  | zero =>
    intro hpre hno hj
    have hj0 : j = 0 := by omega
    subst hj0
    simp only [List.drop_zero] at hpre
    simp [greedyFrom, hpre]
  | succ K ih =>
    intro hpre hno hj
    by_cases hend : j = K + 1
    · subst hend
      simp [greedyFrom, hpre]
    · have hKno : closeT.isPrefixOf (rest.drop (K + 1)) = false :=
        hno (K + 1) (by omega) (le_refl _)
      simp only [greedyFrom, hKno, Bool.false_eq_true, if_false]
      exact ih hpre (fun k hk1 hk2 => hno k hk1 (by omega)) (by omega)

theorem searchTag_of_indexOf {openT closeT s : List Char} {i : Nat} {cap : List Char}
    (hne : openT ≠ [])
    (hidx : indexOfSub openT s = some i)
    (hgr : greedyFrom closeT (tagRest openT s i) (lineLimit (tagRest openT s i)) = some cap) :
    searchTag openT closeT s = some cap := by
  induction s generalizing i with
  | nil =>
    simp only [indexOfSub] at hidx
    split at hidx
    · rename_i h0
      exact absurd h0 hne
    · cases hidx
  | cons c cs ih =>
    cases hpc : openT.isPrefixOf (c :: cs) with
    | true =>
      simp only [indexOfSub, hpc, if_true] at hidx
      injection hidx with h1
      subst h1
      simp only [tagRest, List.drop_zero] at hgr
      simp [searchTag, hpc, hgr]
    | false =>
      simp only [indexOfSub, hpc, Bool.false_eq_true, if_false] at hidx
      cases hx : indexOfSub openT cs with
      | none =>
        rw [hx] at hidx
        simp at hidx
      | some i0 =>
        rw [hx] at hidx
        simp only [Option.map] at hidx
        injection hidx with h1
        subst h1
        have hgr2 : greedyFrom closeT (tagRest openT cs i0)
            (lineLimit (tagRest openT cs i0)) = some cap := hgr
        simp only [searchTag, hpc, Bool.false_eq_true, if_false]
        exact ih hx hgr2

theorem le_lineLimit_of_no_newline :
    ∀ (rest : List Char) (j : Nat), j ≤ rest.length →
      (∀ c ∈ rest.take j, (c == '\n') = false) → j ≤ lineLimit rest := by
  intro rest
  induction rest with
  | nil =>
    intro j hj _
    simpa [lineLimit] using hj
  | cons c cs ih =>
    intro j hj hnl
    cases j with
    | zero => exact Nat.zero_le _
    | succ j0 =>
      have hc : (c == '\n') = false := hnl c (by simp)
      have ihr := ih j0 (by simpa using hj)
        (fun c2 hc2 => hnl c2 (by simp [List.take_succ_cons, hc2]))
      simp only [lineLimit, List.takeWhile_cons, hc, Bool.not_false, if_true, List.length_cons]
      simp only [lineLimit] at ihr
      omega

theorem lt_length_of_prefixOf {closeT rest : List Char} {j : Nat} (hne : closeT ≠ [])
    (h : closeT.isPrefixOf (rest.drop j) = true) : j < rest.length := by
  by_contra hcon
  push_neg at hcon
  rw [List.drop_eq_nil_of_le hcon] at h
  cases closeT with
  | nil => exact hne rfl
  | cons a t => simp [List.isPrefixOf] at h

theorem noLaterClose_spec {closeT rest : List Char} {j : Nat}
    (h : noLaterClose closeT rest j = true) :
    ∀ k, j < k → k ≤ lineLimit rest → closeT.isPrefixOf (rest.drop k) = false := by
  intro k hk1 hk2
  have hall := List.all_eq_true.mp h k (List.mem_range.mpr (by omega))
  simp only [hk1, if_true] at hall
  simpa using hall

/-- The greedy first regex match, under the side conditions that make
the claim-side reading (first open tag, next close tag) coincide with
the greedy capture: the capture stays within one line and no further
close tag follows on that line. -/
theorem searchTag_first_tag {openT closeT s : List Char} {i j : Nat} {capL : List Char}
    (hopen : openT ≠ []) (hclose : closeT ≠ [])
    (hidx : indexOfSub openT s = some i)
    (hjdx : indexOfSub closeT (tagRest openT s i) = some j)
    (hcap : (tagRest openT s i).take j = capL)
    (hnl : ∀ c ∈ capL, (c == '\n') = false)
    (hnolater : noLaterClose closeT (tagRest openT s i) j = true) :
    searchTag openT closeT s = some capL := by
  have hpre := indexOfSub_prefix hjdx
  have hjlt := lt_length_of_prefixOf hclose hpre
  have hjle : j ≤ lineLimit (tagRest openT s i) := by
    refine le_lineLimit_of_no_newline _ j (le_of_lt hjlt) ?_
    rw [hcap]
    exact hnl
  have hno := noLaterClose_spec hnolater
  have hgr : greedyFrom closeT (tagRest openT s i) (lineLimit (tagRest openT s i)) =
      some ((tagRest openT s i).take j) :=
    greedyFrom_eq (lineLimit (tagRest openT s i)) hpre (fun k hk1 hk2 => hno k hk1 hk2) hjle
  rw [hcap] at hgr
  exact searchTag_of_indexOf hopen hidx hgr

/-- Counterexample for C6: a descriptor whose *first artifactId tag* is
`<artifactId>foo</artifactId>` (and first version tag
`<version>1.2</version>`) but with a second artifactId tag on the same
line; the greedy capture swallows both tags, so the derived name is not
`foo-1.2.jar`. -/
theorem C6_counterexample :
    specFirstTagS "<artifactId>" "</artifactId>" pomDup = some "foo" ∧
    specFirstTagS "<version>" "</version>" pomDup = some "1.2" ∧
    get_jar_name envDup configOK "m1" st0 =
      (st0, Except.ok "pA/target/foo</artifactId><artifactId>x-1.2.jar") ∧
    ("pA/target/foo</artifactId><artifactId>x-1.2.jar" : String) ≠
      "pA/target/foo-1.2.jar" := by
  refine ⟨rfl, rfl, rfl, ?_⟩
  decide

/-- C6 (amended): when the first artifactId tag's close is the last
`</artifactId>` on its line and likewise for the first version tag, the
derived artifact filename is `<first artifactId>-<first version>.jar`
under `target/` of the module's configured path; in general the regex
capture is greedy, extending to the last close tag on the line. -/
theorem C6_derived_artifact_name :
    ∀ (env : Env) (config : Cfg) (module : String) (st : St) (path pom : String)
      (aL vL : List Char) (ia ja iv jv : Nat),
      Cfg.getE config module "path" = Except.ok path →
      Cfg.getItem config module "path" = Except.ok path →
      env.readFile (joinPath path "pom.xml") = some pom →
      indexOfSub "<artifactId>".toList pom.toList = some ia →
      indexOfSub "</artifactId>".toList (tagRest "<artifactId>".toList pom.toList ia) =
        some ja →
      (tagRest "<artifactId>".toList pom.toList ia).take ja = aL →
      (∀ c ∈ aL, (c == '\n') = false) →
      noLaterClose "</artifactId>".toList (tagRest "<artifactId>".toList pom.toList ia)
        ja = true →
      indexOfSub "<version>".toList pom.toList = some iv →
      indexOfSub "</version>".toList (tagRest "<version>".toList pom.toList iv) = some jv →
      (tagRest "<version>".toList pom.toList iv).take jv = vL →
      (∀ c ∈ vL, (c == '\n') = false) →
      noLaterClose "</version>".toList (tagRest "<version>".toList pom.toList iv) jv = true →
      get_jar_name env config module st =
        (st, Except.ok (joinPath path (joinPath "target/"
          (String.mk aL ++ "-" ++ String.mk vL ++ ".jar")))) := by
  intro env config module st path pom aL vL ia ja iv jv hp hp2 hf hia hja hcapA hnlA hnolA
    hiv hjv hcapV hnlV hnolV
  have hA : searchTag "<artifactId>".toList "</artifactId>".toList pom.toList = some aL :=
    searchTag_first_tag (by decide) (by decide) hia hja hcapA hnlA hnolA
  have hV : searchTag "<version>".toList "</version>".toList pom.toList = some vL :=
    searchTag_first_tag (by decide) (by decide) hiv hjv hcapV hnlV hnolV
  have hpom : get_pom_infos env config module st =
      (st, Except.ok (String.mk aL, String.mk vL)) := by
    simp only [get_pom_infos, hp, hf, searchTagS, hA, hV, Option.map]
  simp only [get_jar_name, hpom, hp2]

/-- Witness for C6 (amended): the well-formed descriptor `pomOK` yields
`pA/target/foo-1.2.jar`. -/
theorem C6_derived_artifact_name_witness :
    get_jar_name envOK configOK "m1" st0 =
      (st0, Except.ok (joinPath "pA" (joinPath "target/"
        (String.mk "foo".toList ++ "-" ++ String.mk "1.2".toList ++ ".jar")))) :=
  C6_derived_artifact_name envOK configOK "m1" st0 "pA" pomOK "foo".toList "1.2".toList
    0 3 29 3 rfl rfl rfl rfl rfl rfl (by decide) rfl rfl rfl rfl (by decide) rfl

/-! Decimal-rendering lemmas used for the timestamp shape. -/

theorem String_toList_append (a b : String) : (a ++ b).toList = a.toList ++ b.toList := rfl

theorem digitChar_isDigit : ∀ n < 10, (Nat.digitChar n).isDigit = true := by decide

theorem toDigitsCore_lt10 (f n : Nat) (ds : List Char) (h : n < 10) (hf : 0 < f) :
    Nat.toDigitsCore 10 f n ds = Nat.digitChar n :: ds := by
  obtain ⟨f0, rfl⟩ : ∃ f0, f = f0 + 1 := ⟨f - 1, by omega⟩
  simp [Nat.toDigitsCore, Nat.div_eq_of_lt h, Nat.mod_eq_of_lt h]

theorem toDigitsCore_step (f n : Nat) (ds : List Char) (h : 10 ≤ n) :
    Nat.toDigitsCore 10 (f + 1) n ds =
      Nat.toDigitsCore 10 f (n / 10) (Nat.digitChar (n % 10) :: ds) := by
  have hne : n / 10 ≠ 0 := by omega
  simp [Nat.toDigitsCore, hne]

theorem Nat_repr_one_digit (m : Nat) (h : m < 10) :
    Nat.repr m = String.mk [Nat.digitChar m] := by
  unfold Nat.repr Nat.toDigits
  rw [toDigitsCore_lt10 (m + 1) m [] h (by omega)]
  rfl

theorem Nat_repr_two_digits (m : Nat) (h1 : 10 ≤ m) (h2 : m ≤ 99) :
    Nat.repr m = String.mk [Nat.digitChar (m / 10), Nat.digitChar (m % 10)] := by
  unfold Nat.repr Nat.toDigits
  rw [show m + 1 = m + 1 from rfl, toDigitsCore_step m m [] h1,
    toDigitsCore_lt10 m (m / 10) [Nat.digitChar (m % 10)] (by omega) (by omega)]
  rfl

theorem toDigitsCore_stepFuel (f n : Nat) (ds : List Char) (h : 10 ≤ n) (hf : 0 < f) :
    Nat.toDigitsCore 10 f n ds =
      Nat.toDigitsCore 10 (f - 1) (n / 10) (Nat.digitChar (n % 10) :: ds) := by
  obtain ⟨f0, rfl⟩ : ∃ f0, f = f0 + 1 := ⟨f - 1, by omega⟩
  simpa using toDigitsCore_step f0 n ds h

theorem Nat_repr_four_digits (y : Nat) (h1 : 1000 ≤ y) (h2 : y ≤ 9999) :
    Nat.repr y = String.mk [Nat.digitChar (y / 1000), Nat.digitChar (y / 100 % 10),
      Nat.digitChar (y / 10 % 10), Nat.digitChar (y % 10)] := by
  unfold Nat.repr Nat.toDigits
  rw [toDigitsCore_stepFuel (y + 1) y [] (by omega) (by omega)]
  rw [toDigitsCore_stepFuel (y + 1 - 1) (y / 10) [Nat.digitChar (y % 10)]
    (by omega) (by omega)]
  rw [show y / 10 / 10 = y / 100 from by omega]
  rw [toDigitsCore_stepFuel (y + 1 - 1 - 1) (y / 100)
    [Nat.digitChar (y / 10 % 10), Nat.digitChar (y % 10)] (by omega) (by omega)]
  rw [show y / 100 / 10 = y / 1000 from by omega]
  rw [toDigitsCore_lt10 (y + 1 - 1 - 1 - 1) (y / 1000)
    [Nat.digitChar (y / 100 % 10), Nat.digitChar (y / 10 % 10), Nat.digitChar (y % 10)]
    (by omega) (by omega)]
  rfl

theorem pad2_spec (m : Nat) (h : m < 100) :
    (pad2 m).toList.length = 2 ∧ ∀ c ∈ (pad2 m).toList, c.isDigit = true := by
  by_cases hm : m < 10
  · rw [pad2, if_pos hm, Nat_repr_one_digit m hm]
    refine ⟨rfl, ?_⟩
    intro c hc
    rw [String_toList_append] at hc
    simp only [List.mem_append] at hc
    rcases hc with hc | hc
    · simp only [List.mem_singleton.mp (by simpa using hc)]
      decide
    · simp only [List.mem_singleton.mp (by simpa using hc)]
      exact digitChar_isDigit m (by omega)
  · rw [pad2, if_neg hm, Nat_repr_two_digits m (by omega) (by omega)]
    refine ⟨rfl, ?_⟩
    intro c hc
    simp only [String.toList] at hc
    rcases List.mem_cons.mp hc with rfl | hc
    · exact digitChar_isDigit _ (by omega)
    · rcases List.mem_singleton.mp hc with rfl
      exact digitChar_isDigit _ (by omega)

theorem repr_year_spec (y : Nat) (h1 : 1000 ≤ y) (h2 : y ≤ 9999) :
    (Nat.repr y).toList.length = 4 ∧ ∀ c ∈ (Nat.repr y).toList, c.isDigit = true := by
  rw [Nat_repr_four_digits y h1 h2]
  refine ⟨rfl, ?_⟩
  intro c hc
  simp only [String.toList] at hc
  rcases List.mem_cons.mp hc with rfl | hc
  · exact digitChar_isDigit _ (by omega)
  · rcases List.mem_cons.mp hc with rfl | hc
    · exact digitChar_isDigit _ (by omega)
    · rcases List.mem_cons.mp hc with rfl | hc
      · exact digitChar_isDigit _ (by omega)
      · rcases List.mem_singleton.mp hc with rfl
        exact digitChar_isDigit _ (by omega)

theorem strftime_Ymd_spec (tm : Tm) (h1 : 1000 ≤ tm.year) (h2 : tm.year ≤ 9999)
    (h3 : tm.month < 100) (h4 : tm.day < 100) :
    (strftime "%Y%m%d" tm).toList.length = 8 ∧
    ∀ c ∈ (strftime "%Y%m%d" tm).toList, c.isDigit = true := by
  have hfmt : (strftime "%Y%m%d" tm).toList =
      (Nat.repr tm.year).toList ++ ((pad2 tm.month).toList ++ ((pad2 tm.day).toList ++ [])) :=
    rfl
  obtain ⟨hy1, hy2⟩ := repr_year_spec tm.year h1 h2
  obtain ⟨hm1, hm2⟩ := pad2_spec tm.month h3
  obtain ⟨hd1, hd2⟩ := pad2_spec tm.day h4
  constructor
  · rw [hfmt]
    simp only [List.length_append, List.length_nil]
    omega
  · intro c hc
    rw [hfmt] at hc
    simp only [List.append_nil, List.mem_append] at hc
    rcases hc with hc | hc | hc
    · exact hy2 c hc
    · exact hm2 c hc
    · exact hd2 c hc


/-- C7: the upload destination filename.  With timestamping enabled the
`scp` destination is `<artifactId>-<version>-<timestamp>.jar`, the
timestamp formatted (from the UTC time `tm`) with the configured
`timestamp_format` or the default `%Y%m%d-%H%M`; with format `%Y%m%d`
and a four-digit year the timestamp is exactly eight digits; with
timestamping absent or disabled the destination equals the local
artifact basename. -/
theorem C7_upload_destination_name :
    ∀ (env : Env) (config : Cfg) (tm : Tm) (module : String) (st : St) (sec : Sect)
      (user host remo path pom aS vS : String),
      lookupSec config.sections "config" = some sec →
      secGet sec "user" = some user →
      secGet sec "host" = some host →
      secGet sec "remote" = some remo →
      Cfg.getE config module "path" = Except.ok path →
      Cfg.getItem config module "path" = Except.ok path →
      env.readFile (joinPath path "pom.xml") = some pom →
      searchTagS "<artifactId>" "</artifactId>" pom = some aS →
      searchTagS "<version>" "</version>" pom = some vS →
      (∀ args, env.exec args = Except.ok "") →
      (secGet sec "timestamp" = none →
        upload env config tm module st =
          ({ st with log := st.log ++ "Execute \"" ++
              String.intercalate " " (scpArgs user host remo
                (joinPath path (joinPath "target/" (aS ++ "-" ++ vS ++ ".jar")))
                (basename (joinPath path (joinPath "target/" (aS ++ "-" ++ vS ++ ".jar"))))) ++
              "\"\n" }, Except.ok ())) ∧
      (∀ tsv, secGet sec "timestamp" = some tsv → getboolean tsv = Except.ok false →
        upload env config tm module st =
          ({ st with log := st.log ++ "Execute \"" ++
              String.intercalate " " (scpArgs user host remo
                (joinPath path (joinPath "target/" (aS ++ "-" ++ vS ++ ".jar")))
                (basename (joinPath path (joinPath "target/" (aS ++ "-" ++ vS ++ ".jar"))))) ++
              "\"\n" }, Except.ok ())) ∧
      (∀ tsv, secGet sec "timestamp" = some tsv → getboolean tsv = Except.ok true →
        upload env config tm module st =
          ({ st with log := st.log ++ "Execute \"" ++
              String.intercalate " " (scpArgs user host remo
                (joinPath path (joinPath "target/" (aS ++ "-" ++ vS ++ ".jar")))
                (aS ++ "-" ++ vS ++ "-" ++
                  strftime ((secGet sec "timestamp_format").getD "%Y%m%d-%H%M") tm ++
                  ".jar")) ++
              "\"\n" }, Except.ok ())) ∧
      (1000 ≤ tm.year → tm.year ≤ 9999 → tm.month < 100 → tm.day < 100 →
        (strftime "%Y%m%d" tm).toList.length = 8 ∧
        ∀ c ∈ (strftime "%Y%m%d" tm).toList, c.isDigit = true) := by
  intro env config tm module st sec user host remo path pom aS vS hsec huser hhost hremo
    hp hp2 hf ha hv hexec
  have hu : Cfg.getE config "config" "user" = Except.ok user := by
    simp [Cfg.getE, hsec, huser]
  have hh : Cfg.getE config "config" "host" = Except.ok host := by
    simp [Cfg.getE, hsec, hhost]
  have hr : Cfg.getE config "config" "remote" = Except.ok remo := by
    simp [Cfg.getE, hsec, hremo]
  have hpom : get_pom_infos env config module st = (st, Except.ok (aS, vS)) := by
    simp only [get_pom_infos, hp, hf, ha, hv]
  have hjar : get_jar_name env config module st =
      (st, Except.ok (joinPath path (joinPath "target/" (aS ++ "-" ++ vS ++ ".jar")))) := by
    simp only [get_jar_name, hpom, hp2]
  have hexecEq : ∀ (args : List String) (st2 : St), execute env args st2 =
      ({ st2 with log := st2.log ++ "Execute \"" ++ String.intercalate " " args ++ "\"\n" },
        Except.ok "") := by
    intro args st2
    simp [execute, hexec]
  have hscp : ∀ (dst : String) (st2 : St),
      uploadScp env user host remo
        (joinPath path (joinPath "target/" (aS ++ "-" ++ vS ++ ".jar"))) dst st2 =
      ({ st2 with log := st2.log ++ "Execute \"" ++
          String.intercalate " " (scpArgs user host remo
            (joinPath path (joinPath "target/" (aS ++ "-" ++ vS ++ ".jar"))) dst) ++
          "\"\n" }, Except.ok ()) := by
    intro dst st2
    simp only [uploadScp, scpArgs, hexecEq]
  refine ⟨?_, ?_, ?_, ?_⟩
  · intro hts
    simp only [upload, hu, hh, hr, hjar, hsec, hts, hscp]
  · intro tsv hts hgb
    simp only [upload, hu, hh, hr, hjar, hsec, hts, hgb, hscp]
  · intro tsv hts hgb
    have hgt : get_timestamp config tm =
        Except.ok (strftime ((secGet sec "timestamp_format").getD "%Y%m%d-%H%M") tm) := by
      simp only [get_timestamp, hsec]
      cases secGet sec "timestamp_format" <;> rfl
    simp only [upload, hu, hh, hr, hjar, hsec, hts, hgb, hpom, hgt, hscp]
  · intro hy1 hy2 hm hd
    exact strftime_Ymd_spec tm hy1 hy2 hm hd

/-- Witness for C7: with format `%Y%m%d` the remote name embeds the
eight-digit UTC date; without a timestamp key it is the jar basename. -/
theorem C7_upload_destination_name_witness :
    upload env7 configTS tmX "m1" st0 =
      (⟨none, "Execute \"scp pA/target/foo-1.2.jar u@h:rem/foo-1.2-20261012.jar\"\n", []⟩,
        Except.ok ()) ∧
    upload env7 configOK tmX "m1" st0 =
      (⟨none, "Execute \"scp pA/target/foo-1.2.jar u@h:rem/foo-1.2.jar\"\n", []⟩,
        Except.ok ()) ∧
    (strftime "%Y%m%d" tmX).toList.length = 8 ∧
    (∀ c ∈ (strftime "%Y%m%d" tmX).toList, c.isDigit = true) := by
  refine ⟨?_, ?_, ?_, ?_⟩
  · exact (C7_upload_destination_name env7 configTS tmX "m1" st0
      [("user", "u"), ("host", "h"), ("remote", "rem"), ("modules", "m1"),
       ("cache", "cachefile"), ("log", "logfile"),
       ("timestamp", "yes"), ("timestamp_format", "%Y%m%d")]
      "u" "h" "rem" "pA" pomOK "foo" "1.2" rfl rfl rfl rfl rfl rfl rfl rfl rfl
      (fun _ => rfl)).2.2.1 "yes" rfl rfl
  · exact (C7_upload_destination_name env7 configOK tmX "m1" st0
      [("user", "u"), ("host", "h"), ("remote", "rem"), ("modules", "m1"),
       ("cache", "cachefile"), ("log", "logfile")]
      "u" "h" "rem" "pA" pomOK "foo" "1.2" rfl rfl rfl rfl rfl rfl rfl rfl rfl
      (fun _ => rfl)).1 rfl
  · exact ((C7_upload_destination_name env7 configOK tmX "m1" st0
      [("user", "u"), ("host", "h"), ("remote", "rem"), ("modules", "m1"),
       ("cache", "cachefile"), ("log", "logfile")]
      "u" "h" "rem" "pA" pomOK "foo" "1.2" rfl rfl rfl rfl rfl rfl rfl rfl rfl
      (fun _ => rfl)).2.2.2 (by decide) (by decide) (by decide) (by decide)).1
  · exact ((C7_upload_destination_name env7 configOK tmX "m1" st0
      [("user", "u"), ("host", "h"), ("remote", "rem"), ("modules", "m1"),
       ("cache", "cachefile"), ("log", "logfile")]
      "u" "h" "rem" "pA" pomOK "foo" "1.2" rfl rfl rfl rfl rfl rfl rfl rfl rfl
      (fun _ => rfl)).2.2.2 (by decide) (by decide) (by decide) (by decide)).2

/-- `send_mail` without an email section sends nothing. -/
theorem send_mail_no_email {config : Cfg} {subject message : String}
    (h : Cfg.hasSection config "email" = false) :
    send_mail config subject message = Except.ok none := by
  simp [send_mail, h]

/-- `send_mail` with an email section that succeeds returns the message
built from the configured sender, recipient and server. -/
theorem send_mail_spec (config : Cfg) (subject message : String)
    (hsec : Cfg.hasSection config "email" = true) {m : Option Mail}
    (h : send_mail config subject message = Except.ok m) :
    ∃ sender receiver server,
      Cfg.getE config "email" "from" = Except.ok sender ∧
      Cfg.getE config "email" "contact" = Except.ok receiver ∧
      Cfg.getE config "email" "server" = Except.ok server ∧
      m = some ⟨sender, receiver, server, subject, message⟩ := by
  simp only [send_mail, hsec] at h
  rw [if_neg (by simp)] at h
  split at h
  · cases h
  · rename_i sender heqFrom
    split at h
    · cases h
    · rename_i receiver heqContact
      split at h
      · cases h
      · rename_i server heqServer
        injection h with h3
        exact ⟨sender, receiver, server, heqFrom, heqContact, heqServer, h3.symm⟩

/-- C8: when a run completes, a mail is produced exactly when the error
accumulator is non-empty and an email section is configured, and its
body lists every accumulated failure message in order followed by the
full execution log; no email section or no errors means no mail.  The
concrete conjuncts settle the two-module instance: modA's pull failure
and modB's build failure give exactly two failure lines, modA's first. -/
theorem C8_failure_report :
    (∀ (env : Env) (config : Cfg) (tm : Tm) (cache0 : Option Cache) (stf : St)
       (mails : Option Mail),
       run env config tm cache0 = (stf, Except.ok mails) →
       (stf.errors = [] → mails = none) ∧
       (Cfg.hasSection config "email" = false → mails = none) ∧
       (stf.errors ≠ [] → Cfg.hasSection config "email" = true →
         ∃ sender receiver server,
           Cfg.getE config "email" "from" = Except.ok sender ∧
           Cfg.getE config "email" "contact" = Except.ok receiver ∧
           Cfg.getE config "email" "server" = Except.ok server ∧
           mails = some ⟨sender, receiver, server, "[autobuild] errors",
             "Autobuild has raised some errors :\n" ++
             String.intercalate "\n" stf.errors ++
             "\n\nExecution log :\n\n" ++ stf.log⟩)) ∧
    ((run env8 config8 tmX none).1).errors =
      ["- Failed to pull modA : " ++ strCPE ["git", "--git-dir=pA/.git", "fetch"] 1,
       "- Failed to build modB : " ++ strCPE ["mvn", "--file=pB/pom.xml", "install"] 1] ∧
    (∃ m, (run env8 config8 tmX none).2 = Except.ok (some m) ∧
       m.body = "Autobuild has raised some errors :\n" ++
         String.intercalate "\n" ((run env8 config8 tmX none).1).errors ++
         "\n\nExecution log :\n\n" ++ ((run env8 config8 tmX none).1).log) := by
  refine ⟨?_, rfl, ⟨_, rfl, rfl⟩⟩
  intro env config tm cache0 stf mails h
  simp only [run] at h
  split at h
  · injection h with h1 h2
    injection h2
  · split at h
    · injection h with h1 h2
      injection h2
    · split at h
      · injection h with h1 h2
        injection h2
      · split at h
        · injection h with h1 h2
          injection h2
        · rename_i st2 heqRM
          split at h
          · injection h with h1 h2
            injection h2
          · rename_i st3 heqHooks
            split at h
            · rename_i hEmpty
              injection h with h1 h2
              subst h1
              injection h2 with h2
              subst h2
              refine ⟨fun _ => rfl, fun _ => rfl, fun hne _ => ?_⟩
              exact absurd (List.isEmpty_iff.mp hEmpty) hne
            · rename_i hEmpty
              split at h
              · injection h with h1 h2
                injection h2
              · rename_i logData heqLog
                split at h
                · injection h with h1 h2
                  injection h2
                · rename_i m heqSend
                  injection h with h1 h2
                  subst h1
                  injection h2 with h2
                  subst h2
                  have hlog : logData = st3.log := by
                    simp only [get_log] at heqLog
                    split at heqLog
                    · cases heqLog
                    · injection heqLog with h3
                      exact h3.symm
                  subst hlog
                  constructor
                  · intro hnil
                    rw [hnil] at hEmpty
                    simp at hEmpty
                  constructor
                  · intro hnoemail
                    rw [send_mail_no_email hnoemail] at heqSend
                    injection heqSend with h3
                    exact h3.symm
                  · intro hne hsec
                    exact send_mail_spec config _ _ hsec heqSend

/-- Witness for C8: the two-failure scenario produces the mail with the
configured addresses and the errors-then-log body. -/
theorem C8_failure_report_witness :
    ∃ sender receiver server,
      Cfg.getE config8 "email" "from" = Except.ok sender ∧
      Cfg.getE config8 "email" "contact" = Except.ok receiver ∧
      Cfg.getE config8 "email" "server" = Except.ok server ∧
      mailOf (run env8 config8 tmX none) = some ⟨sender, receiver, server,
        "[autobuild] errors",
        "Autobuild has raised some errors :\n" ++
          String.intercalate "\n" ((run env8 config8 tmX none).1).errors ++
          "\n\nExecution log :\n\n" ++ ((run env8 config8 tmX none).1).log⟩ :=
  (C8_failure_report.1 env8 config8 tmX none (run env8 config8 tmX none).1
    (mailOf (run env8 config8 tmX none)) rfl).2.2 (by decide) rfl

/-- Counterexample for C9: invoked with no positional argument, the
script prints the usage line and falls off the end, exiting with status
0, not a non-zero status. -/
theorem C9_counterexample :
    cliMain ["autobuild.py"] (fun _ => true) =
      CliAction.usage ("Usage: autobuild.py config.cfg") 0 ∧
    (cliMain ["autobuild.py"] (fun _ => true)).exitCode = some 0 := ⟨rfl, rfl⟩

/-- C9 (amended): with no positional argument the script prints the
usage line and exits with status 0 without running the pipeline; with a
nonexistent path it prints a file-does-not-exist line and exits with
status 1 without running the pipeline. -/
theorem C9_cli_exit_behavior :
    (∀ (argv0 : String) (ex : String → Bool),
       cliMain [argv0] ex = CliAction.usage ("Usage: " ++ argv0 ++ " config.cfg") 0) ∧
    (∀ (argv0 p : String) (rest : List String) (ex : String → Bool),
       ex p = false →
       cliMain (argv0 :: p :: rest) ex =
         CliAction.missingFile ("file does not exist " ++ sQuote ++ p ++ sQuote) 1) := by
  constructor
  · intro argv0 ex
    rfl
  · intro argv0 p rest ex h
    have hlen : ¬((argv0 :: p :: rest).length < 2) := by
      simp only [List.length_cons]
      omega
    simp [cliMain, hlen, h]

/-- Witness for C9 (amended): both terminal behaviours at concrete
inputs. -/
theorem C9_cli_exit_behavior_witness :
    cliMain ["autobuild.py", "x.cfg"] (fun _ => false) =
      CliAction.missingFile ("file does not exist " ++ sQuote ++ "x.cfg" ++ sQuote) 1 ∧
    cliMain ["autobuild.py"] (fun _ => false) =
      CliAction.usage ("Usage: " ++ "autobuild.py" ++ " config.cfg") 0 :=
  ⟨C9_cli_exit_behavior.2 "autobuild.py" "x.cfg" [] (fun _ => false) rfl,
   C9_cli_exit_behavior.1 "autobuild.py" (fun _ => false)⟩

/-- C10: when the built module's descriptor has no artifactId match, or
has one but no version match, the extraction raises AttributeError,
which is not a CalledProcessError: it escapes the per-module handler,
aborts the loop with no error message accumulated and no cache change
for that module, no later module is processed, and the run ends in the
exception with no failure mail. -/
theorem C10_missing_tag_aborts_run :
    ∀ (env : Env) (config : Cfg) (tm : Tm) (module : String) (st stp sth stc stb : St)
      (user host remo path pom lg mstr : String) (rest2 : List String)
      (cache0 : Option Cache),
      check_module_config config module = Except.ok () →
      pull env config module st = (stp, Except.ok ()) →
      has_changed env config module stp = (sth, Except.ok true) →
      clean env config module sth = (stc, Except.ok ()) →
      build env config module stc = (stb, Except.ok ()) →
      Cfg.getE config "config" "user" = Except.ok user →
      Cfg.getE config "config" "host" = Except.ok host →
      Cfg.getE config "config" "remote" = Except.ok remo →
      Cfg.getE config module "path" = Except.ok path →
      env.readFile (joinPath path "pom.xml") = some pom →
      (searchTagS "<artifactId>" "</artifactId>" pom = none ∨
       (∃ aS, searchTagS "<artifactId>" "</artifactId>" pom = some aS ∧
          searchTagS "<version>" "</version>" pom = none)) →
      processModule env config tm module st = (stb, Except.error PyExc.attributeError) ∧
      stb.errors = st.errors ∧
      stb.cache = st.cache ∧
      (∀ rest, runModules env config tm (module :: rest) st =
        (stb, Except.error PyExc.attributeError)) ∧
      (st = ⟨cache0, "", []⟩ →
       check_config config = Except.ok () →
       Cfg.getE config "config" "log" = Except.ok lg →
       Cfg.getE config "config" "modules" = Except.ok mstr →
       pySplit mstr ',' = module :: rest2 →
       run env config tm cache0 = (stb, Except.error PyExc.attributeError)) := by
  intro env config tm module st stp sth stc stb user host remo path pom lg mstr rest2 cache0
    hchk hpull hhc hclean hbuild hu hh hr hpath hfile hsearch
  have hpom : get_pom_infos env config module stb =
      (stb, Except.error PyExc.attributeError) := by
    rcases hsearch with hnone | ⟨aS, hsome, hvnone⟩
    · simp only [get_pom_infos, hpath, hfile, hnone]
    · simp only [get_pom_infos, hpath, hfile, hsome, hvnone]
  have hjar : get_jar_name env config module stb =
      (stb, Except.error PyExc.attributeError) := by
    simp only [get_jar_name, hpom]
  have hup : upload env config tm module stb =
      (stb, Except.error PyExc.attributeError) := by
    simp only [upload, hu, hh, hr, hjar]
  have hbp : buildPipeline env config tm module sth =
      (stb, Except.error PyExc.attributeError) := by
    simp only [buildPipeline, hclean, hbuild, hup]
  have hap : afterPullPart env config tm module stp =
      (stb, Except.error PyExc.attributeError) := by
    simp only [afterPullPart, hhc, hbp]
  have hpm : processModule env config tm module st =
      (stb, Except.error PyExc.attributeError) := by
    simp only [processModule, hchk, hpull, hap]
  have herr : stb.errors = st.errors :=
    ((build_st hbuild).2.trans (clean_st hclean).2).trans
      ((has_changed_st hhc).2.trans (pull_st hpull).2)
  have hcache : stb.cache = st.cache :=
    ((build_st hbuild).1.trans (clean_st hclean).1).trans
      ((has_changed_st hhc).1.trans (pull_st hpull).1)
  refine ⟨hpm, herr, hcache, ?_, ?_⟩
  · intro rest
    simp only [runModules, hpm]
  · intro hst hcc hlg hms hsplit
    subst hst
    have hrm : runModules env config tm (module :: rest2) ⟨cache0, "", []⟩ =
        (stb, Except.error PyExc.attributeError) := by
      simp only [runModules, hpm]
    simp only [run, hcc, hlg, hms, hsplit, hrm]

/-- Witness for C10: a descriptor with no artifactId tag, and one with
an artifactId but no version tag, each abort the whole run with
AttributeError, leaving the error accumulator empty. -/
theorem C10_missing_tag_aborts_run_witness :
    ((run envNT configOK tmX none).2 = Except.error PyExc.attributeError ∧
     ((run envNT configOK tmX none).1).errors = []) ∧
    ((run envNV configOK tmX none).2 = Except.error PyExc.attributeError ∧
     ((run envNV configOK tmX none).1).errors = []) := by
  constructor
  · have happ := C10_missing_tag_aborts_run envNT configOK tmX "m1" st0
      (pull envNT configOK "m1" st0).1
      (has_changed envNT configOK "m1" (pull envNT configOK "m1" st0).1).1
      (clean envNT configOK "m1"
        (has_changed envNT configOK "m1" (pull envNT configOK "m1" st0).1).1).1
      (build envNT configOK "m1"
        (clean envNT configOK "m1"
          (has_changed envNT configOK "m1" (pull envNT configOK "m1" st0).1).1).1).1
      "u" "h" "rem" "pA" pomNoTag "logfile" "m1" [] none
      rfl rfl rfl rfl rfl rfl rfl rfl rfl rfl (Or.inl rfl)
    obtain ⟨hpm, herr, hcache, hrm, hrun⟩ := happ
    have hr := hrun rfl rfl rfl rfl rfl
    rw [hr]
    exact ⟨rfl, herr⟩
  · have happ := C10_missing_tag_aborts_run envNV configOK tmX "m1" st0
      (pull envNV configOK "m1" st0).1
      (has_changed envNV configOK "m1" (pull envNV configOK "m1" st0).1).1
      (clean envNV configOK "m1"
        (has_changed envNV configOK "m1" (pull envNV configOK "m1" st0).1).1).1
      (build envNV configOK "m1"
        (clean envNV configOK "m1"
          (has_changed envNV configOK "m1" (pull envNV configOK "m1" st0).1).1).1).1
      "u" "h" "rem" "pA" pomNoVer "logfile" "m1" [] none
      rfl rfl rfl rfl rfl rfl rfl rfl rfl rfl (Or.inr ⟨"foo", rfl, rfl⟩)
    obtain ⟨hpm, herr, hcache, hrm, hrun⟩ := happ
    have hr := hrun rfl rfl rfl rfl rfl
    rw [hr]
    exact ⟨rfl, herr⟩
